import Mathlib

/-!
Verification development for the road-segments processing pipeline
(`streamlit_app.py`).

The pipeline is embedded shallowly:

* Float cells are modelled by `PFloat`: an exact rational together with the
  IEEE-754 special values `+inf`, `-inf`, `nan` that the code produces via
  division by zero and via missing-key cells (pandas stores a missing dict
  key as `NaN`).  Count data coming from the JSON payloads is modelled as
  exact rationals, so float rounding is out of scope; all claims are about
  counts, sums, comparisons and divisions, which are exact at these
  magnitudes in the actual program as well.
* `pandas.sort_values` (used with its default `kind='quicksort'`) is
  modelled after pandas `nargsort` (NaN keys masked out and appended at the
  end, reversal before and after the ascending argsort when
  `ascending=False`) on top of a transcription of numpy's generic
  introsort (`npysort/quicksort.c.src`, `SMALL_QUICKSORT = 15`, median of
  three, Hoare-style scan loops, depth limit `2 * log2 n`).
* The rest of the pipeline (widget extraction, merge with `_x`/`_y` suffix
  collision handling, metric computation, groupby aggregation, sequential
  report writing) is transcribed function by function from
  `streamlit_app.py`.
-/

/-- Model of a pandas float cell: an exact rational or one of the IEEE
special values. -/
inductive PFloat where
  | fin (q : ℚ)
  | posInf
  | negInf
  | nan
  deriving DecidableEq

/-- numpy's `DOUBLE_LT(a, b) = a < b || (b != b && a == a)`: the strict
comparison used by numpy's sorts.  It orders `nan` above everything and is
a strict linear order on `PFloat`. -/
def pfLt : PFloat → PFloat → Bool
  | .nan, _ => false
  | _, .nan => true
  | .negInf, .negInf => false
  | .negInf, _ => true
  | _, .negInf => false
  | .posInf, _ => false
  | .fin _, .posInf => true
  | .fin a, .fin b => decide (a < b)

/-- IEEE addition on `PFloat` (as performed by pandas column addition). -/
def pfAdd : PFloat → PFloat → PFloat
  | .nan, _ => .nan
  | _, .nan => .nan
  | .fin a, .fin b => .fin (a + b)
  | .posInf, .negInf => .nan
  | .negInf, .posInf => .nan
  | .posInf, _ => .posInf
  | _, .posInf => .posInf
  | .negInf, _ => .negInf
  | _, .negInf => .negInf

/-- IEEE division of a `PFloat` numerator by an exact (finite) denominator,
as performed by the pipeline's `... / df_total['total_km']` columns:
division by zero yields a signed infinity (or `nan` for `0/0`), never an
exception. -/
def pfDiv : PFloat → ℚ → PFloat
  | .nan, _ => .nan
  | .fin a, d =>
      if d = 0 then (if a = 0 then .nan else if 0 < a then .posInf else .negInf)
      else .fin (a / d)
  | .posInf, d => if d < 0 then .negInf else .posInf
  | .negInf, d => if d < 0 then .posInf else .negInf

/-- Test for the `nan` value (pandas `isna` on a float cell). -/
def isNanPF : PFloat → Bool
  | .nan => true
  | _ => false

/-- Test for a finite value. -/
def isFinitePF : PFloat → Bool
  | .fin _ => true
  | _ => false

theorem pfLt_irrefl (a : PFloat) : pfLt a a = false := by
  cases a <;> simp [pfLt]

theorem pfLt_asymm {a b : PFloat} (h : pfLt a b = true) : pfLt b a = false := by
  cases a <;> cases b <;> simp_all [pfLt] <;> linarith

theorem pfLt_trans {a b c : PFloat} (h₁ : pfLt a b = true) (h₂ : pfLt b c = true) :
    pfLt a c = true := by
  cases a <;> cases b <;> cases c <;> simp_all [pfLt] <;> linarith

theorem pfLt_connex (a b : PFloat) : pfLt a b = true ∨ pfLt b a = true ∨ a = b := by
  cases a <;> cases b <;> try (simp [pfLt]; done)
  case fin.fin x y => rcases lt_trichotomy x y with h | h | h <;> simp [pfLt, h]

/-- Transitivity of the reflexive companion `¬ pfLt b a` of `pfLt`. -/
theorem pfNlt_trans {a b c : PFloat} (h₁ : pfLt b a = false) (h₂ : pfLt c b = false) :
    pfLt c a = false := by
  by_contra hne
  have h : pfLt c a = true := by
    cases hca : pfLt c a
    · exact absurd hca hne
    · rfl
  rcases pfLt_connex a b with f | f | f
  · have := pfLt_trans h f
    simp_all
  · simp_all
  · subst f
    simp_all

open List

/-! Generic list utilities used by the embedding. -/

/-- Keep the first occurrence of each element, preserving order (Python
dict/DataFrame column-union semantics). -/
def dedupFirst [DecidableEq α] (l : List α) : List α :=
  l.foldl (fun acc a => if a ∈ acc then acc else acc ++ [a]) []

theorem dedupFirst_aux_nodup [DecidableEq α] (l acc : List α) (h : acc.Nodup) :
    (l.foldl (fun acc a => if a ∈ acc then acc else acc ++ [a]) acc).Nodup := by
  induction l generalizing acc with
  | nil => exact h
  | cons x l ih =>
    simp only [List.foldl_cons]
    split
    · exact ih acc h
    · exact ih _ (by simp [List.nodup_append, h, *])

theorem dedupFirst_aux_mem [DecidableEq α] (l acc : List α) (a : α) :
    a ∈ l.foldl (fun acc a => if a ∈ acc then acc else acc ++ [a]) acc ↔
      a ∈ acc ∨ a ∈ l := by
  induction l generalizing acc with
  | nil => simp
  | cons x l ih =>
    simp only [List.foldl_cons]
    split
    · rw [ih]
      constructor
      · rintro (h | h)
        · exact Or.inl h
        · exact Or.inr (List.mem_cons_of_mem _ h)
      · rintro (h | h)
        · exact Or.inl h
        · rcases List.mem_cons.1 h with rfl | h
          · exact Or.inl (by assumption)
          · exact Or.inr h
    · rw [ih]
      simp only [List.mem_append, List.mem_singleton, List.mem_cons]
      tauto

theorem dedupFirst_nodup [DecidableEq α] (l : List α) : (dedupFirst l).Nodup :=
  dedupFirst_aux_nodup l [] List.nodup_nil

theorem mem_dedupFirst [DecidableEq α] {l : List α} {a : α} :
    a ∈ dedupFirst l ↔ a ∈ l := by
  unfold dedupFirst
  rw [dedupFirst_aux_mem]
  simp

/-- Python `dict(pairs)` lookup: the last pair with the given key wins. -/
def lookupLast [DecidableEq κ] (ps : List (κ × β)) (k : κ) : Option β :=
  (ps.reverse.find? (fun p => decide (p.1 = k))).map (·.2)

/-! The stable ascending insertion sort that numpy's introsort degenerates
to on ranges of at most `SMALL_QUICKSORT + 1 = 16` elements.  numpy inserts
each element (scanning left to right) into the sorted prefix, shifting
strictly greater elements right, i.e. placing it after all elements whose
key is not strictly greater. -/

/-- Insert `x` before the first element whose key is strictly greater
(numpy's inner insertion loop on a sorted prefix). -/
def npyInsert (key : α → PFloat) (x : α) : List α → List α
  | [] => [x]
  | y :: l => if pfLt (key x) (key y) then x :: y :: l else y :: npyInsert key x l

/-- Left-to-right insertion sort (accumulator = sorted prefix). -/
def npyInsertionSortAux (key : α → PFloat) : List α → List α → List α
  | acc, [] => acc
  | acc, x :: l => npyInsertionSortAux key (npyInsert key x acc) l

/-- numpy's small-array insertion sort. -/
def npyInsertionSort (key : α → PFloat) (l : List α) : List α :=
  npyInsertionSortAux key [] l

/-- Sortedness by key: every earlier element's key is not greater than any
later element's key. -/
def KeySorted (key : α → PFloat) (l : List α) : Prop :=
  List.Pairwise (fun a b => pfLt (key b) (key a) = false) l

/-- Decidable adjacent-pairs sortedness check. -/
def sortedB (key : α → PFloat) : List α → Bool
  | [] => true
  | [_] => true
  | a :: b :: l => !pfLt (key b) (key a) && sortedB key (b :: l)

theorem pfNlt_of_lt_of_nlt {x y z : PFloat} (hxy : pfLt x y = true)
    (hzy : pfLt z y = false) : pfLt z x = false := by
  by_contra h
  have h' : pfLt z x = true := by
    cases hzx : pfLt z x
    · exact absurd hzx h
    · rfl
  exact absurd (pfLt_trans h' hxy) (by simp [hzy])

theorem npyInsert_perm (key : α → PFloat) (x : α) (l : List α) :
    npyInsert key x l ~ x :: l := by
  induction l with
  | nil => rfl
  | cons y l ih =>
    unfold npyInsert
    split
    · rfl
    · exact ((ih.cons y).trans (List.Perm.swap x y l))

theorem npyInsert_sorted (key : α → PFloat) (x : α) {l : List α}
    (h : KeySorted key l) : KeySorted key (npyInsert key x l) := by
  induction l with
  | nil => simp [npyInsert, KeySorted]
  | cons y l ih =>
    unfold npyInsert
    rcases List.pairwise_cons.1 h with ⟨hy, hl⟩
    split
    · rename_i hlt
      refine List.pairwise_cons.2 ⟨?_, h⟩
      intro z hz
      rcases List.mem_cons.1 hz with rfl | hz
      · exact pfLt_asymm hlt
      · exact pfNlt_of_lt_of_nlt hlt (hy z hz)
    · rename_i hnlt
      refine List.pairwise_cons.2 ⟨?_, ih hl⟩
      intro z hz
      rcases (npyInsert_perm key x l).mem_iff.1 hz with hz'
      rcases List.mem_cons.1 hz' with rfl | hz''
      · simpa using hnlt
      · exact hy z hz''

theorem npyInsertionSortAux_perm (key : α → PFloat) (l acc : List α) :
    npyInsertionSortAux key acc l ~ acc ++ l := by
  induction l generalizing acc with
  | nil => simp [npyInsertionSortAux]
  | cons x l ih =>
    unfold npyInsertionSortAux
    refine (ih _).trans ?_
    refine (((npyInsert_perm key x acc).append_right l).trans ?_)
    exact (@List.perm_middle _ x acc l).symm

theorem npyInsertionSortAux_sorted (key : α → PFloat) (l : List α)
    {acc : List α} (h : KeySorted key acc) :
    KeySorted key (npyInsertionSortAux key acc l) := by
  induction l generalizing acc with
  | nil => exact h
  | cons x l ih => exact ih (npyInsert_sorted key x h)

theorem npyInsertionSort_perm (key : α → PFloat) (l : List α) :
    npyInsertionSort key l ~ l :=
  npyInsertionSortAux_perm key l []

theorem npyInsertionSort_sorted (key : α → PFloat) (l : List α) :
    KeySorted key (npyInsertionSort key l) :=
  npyInsertionSortAux_sorted key l List.Pairwise.nil

theorem filter_npyInsert (key : α → PFloat) (c : PFloat) (x : α) (acc : List α) :
    KeySorted key acc →
    (npyInsert key x acc).filter (fun a => decide (key a = c)) =
      acc.filter (fun a => decide (key a = c)) ++ (if key x = c then [x] else []) := by
  induction acc with
  | nil =>
    intro _
    simp only [npyInsert, List.filter_cons, List.filter_nil, List.nil_append]
    split <;> simp_all
  | cons y acc ih =>
    intro h
    rcases List.pairwise_cons.1 h with ⟨hy, hl⟩
    unfold npyInsert
    split
    · rename_i hlt
      have hne : ∀ a ∈ y :: acc, ¬ (key a = c ∧ key x = c) := by
        rintro a ha ⟨hac, hxc⟩
        have hax : key a = key x := by rw [hac, hxc]
        rcases List.mem_cons.1 ha with rfl | ha'
        · rw [hax] at hlt
          exact absurd hlt (by simp [pfLt_irrefl])
        · have := hy a ha'
          rw [hax] at this
          simp [hlt] at this
      by_cases hxc : key x = c
      · have hfe : (y :: acc).filter (fun a => decide (key a = c)) = [] := by
          rw [List.filter_eq_nil_iff]
          intro a ha
          simp only [decide_eq_true_eq]
          exact fun hac => hne a ha ⟨hac, hxc⟩
        simp [List.filter_cons, hxc, hfe]
      · simp [List.filter_cons, hxc]
    · rename_i hnlt
      simp only [List.filter_cons]
      rw [ih hl]
      split <;> simp

theorem filter_npyInsertionSortAux (key : α → PFloat) (c : PFloat) (l : List α) :
    ∀ acc : List α, KeySorted key acc →
    (npyInsertionSortAux key acc l).filter (fun a => decide (key a = c)) =
      acc.filter (fun a => decide (key a = c)) ++ l.filter (fun a => decide (key a = c)) := by
  induction l with
  | nil => intro acc _; simp [npyInsertionSortAux]
  | cons x l ih =>
    intro acc h
    unfold npyInsertionSortAux
    rw [ih _ (npyInsert_sorted key x h), filter_npyInsert key c x acc h,
      List.append_assoc, List.filter_cons]
    split <;> simp_all

/-- Stability of numpy's small-array insertion sort: the subsequence of
elements with any fixed key value is exactly the corresponding subsequence
of the input. -/
theorem npyInsertionSort_stable (key : α → PFloat) (c : PFloat) (l : List α) :
    (npyInsertionSort key l).filter (fun a => decide (key a = c)) =
      l.filter (fun a => decide (key a = c)) := by
  unfold npyInsertionSort
  rw [filter_npyInsertionSortAux key c l [] List.Pairwise.nil]
  simp

theorem sortedB_iff (key : α → PFloat) :
    ∀ l : List α, sortedB key l = true ↔ KeySorted key l := by
  intro l
  induction l with
  | nil => simp [sortedB, KeySorted]
  | cons a l ih =>
    cases l with
    | nil => simp [sortedB, KeySorted]
    | cons b t =>
      unfold sortedB
      rw [Bool.and_eq_true, ih]
      constructor
      · rintro ⟨hab, hbt⟩
        refine List.pairwise_cons.2 ⟨?_, hbt⟩
        intro z hz
        rcases List.mem_cons.1 hz with rfl | hz'
        · simpa using hab
        · exact pfNlt_trans (by simpa using hab) ((List.pairwise_cons.1 hbt).1 z hz')
      · intro h
        rcases List.pairwise_cons.1 h with ⟨ha, ht⟩
        exact ⟨by simpa using ha b (List.mem_cons_self b t), ht⟩

/-! Transcription of numpy's generic argsort quicksort
(`npysort/quicksort.c.src`, function `aquicksort_@suff@`), the algorithm
behind `pandas.sort_values(kind='quicksort')` on this data.  The element
level is used directly instead of an index array: the algorithm only ever
inspects elements through `key` and moves them by position, so running it
on the rows themselves performs exactly the same comparisons and swaps as
running it on `tosort` indices and gathering at the end. -/

/-- The C scan `do ++pi; while (LT(v[*pi], vp));` — starting at `i`, the
first position whose key is not less than `vp`.  The fuel is an upper bound
on the number of steps; the pivot parked at position `n-2` stops the scan
in every reachable state. -/
def scanUp [Inhabited α] (key : α → PFloat) (a : Array α) (vp : PFloat) :
    Nat → Nat → Nat
  | 0, i => i
  | fuel+1, i => if pfLt (key (a.getD i default)) vp then scanUp key a vp fuel (i+1) else i

/-- The C scan `do --pj; while (LT(vp, v[*pj]));` — starting at `p` and
moving down, the first position whose key is not greater than `vp`.  The
median-of-three element left at position 0 stops the scan in every
reachable state (the C code would read out of bounds otherwise). -/
def scanDown [Inhabited α] (key : α → PFloat) (a : Array α) (vp : PFloat) : Nat → Nat
  | 0 => 0
  | p+1 => if pfLt vp (key (a.getD (p+1) default)) then scanDown key a vp p else p+1

/-- The Hoare partition exchange loop of numpy's quicksort. -/
def partLoop [Inhabited α] (key : α → PFloat) (vp : PFloat) :
    Nat → Array α → Nat → Nat → Array α × Nat
  | 0, a, pi, _ => (a, pi)
  | fuel+1, a, pi, pj =>
    let pi' := scanUp key a vp a.size (pi+1)
    let pj' := scanDown key a vp (pj - 1)
    if pj' ≤ pi' then (a, pi')
    else partLoop key vp fuel (a.swap! pi' pj') pi' pj'

/-- The median-of-three preamble of numpy's quicksort partition: the C
code's three conditional swaps of the first, middle and last elements of
the range (`pl`, `pm`, `pr`). -/
def prepArr [Inhabited α] (key : α → PFloat) (l : List α) : Array α :=
  let a := l.toArray
  let n := a.size
  let pm := (n - 1) / 2
  let a := if pfLt (key (a.getD pm default)) (key (a.getD 0 default)) then a.swap! pm 0 else a
  let a := if pfLt (key (a.getD (n-1) default)) (key (a.getD pm default)) then a.swap! (n-1) pm else a
  if pfLt (key (a.getD pm default)) (key (a.getD 0 default)) then a.swap! pm 0 else a

/-- The pivot value `vp = v[*pm]` read after the median-of-three swaps. -/
def pivotV [Inhabited α] (key : α → PFloat) (l : List α) : PFloat :=
  key ((prepArr key l).getD ((l.length - 1) / 2) default)

/-- The range with the pivot parked at position `n-2` (`SWAP(*pm, *(pr-1))`). -/
def parkedArr [Inhabited α] (key : α → PFloat) (l : List α) : Array α :=
  (prepArr key l).swap! ((l.length - 1) / 2) (l.length - 2)

/-- The Hoare exchange loop run on the prepared range. -/
def partRes [Inhabited α] (key : α → PFloat) (l : List α) : Array α × Nat :=
  partLoop key (pivotV key l) l.length (parkedArr key l) 0 (l.length - 2)

/-- The array after the pivot is moved back to its final position `pi`
(`SWAP(*pi, *(pr-1))`). -/
def partResArr [Inhabited α] (key : α → PFloat) (l : List α) : Array α :=
  (partRes key l).1.swap! (partRes key l).2 (l.length - 2)

/-- One partition step of numpy's quicksort on a range of length `≥ 17`:
median-of-three of the first, middle and last elements, pivot parked at
position `n-2`, Hoare scans, pivot moved to its final position `pi`.
Returns the left part, the pivot element and the right part. -/
def partitionStep [Inhabited α] (key : α → PFloat) (l : List α) :
    List α × α × List α :=
  ((partResArr key l).toList.take (partRes key l).2,
   (partResArr key l).toList.getD (partRes key l).2 default,
   (partResArr key l).toList.drop ((partRes key l).2 + 1))

/-- One sift-down pass of numpy's argsort heapsort
(`npysort/heapsort.c.src`, `aheapsort_@suff@`), with the C code's 1-based
positions. -/
def heapSift [Inhabited α] (key : α → PFloat) :
    Nat → Array α → α → Nat → Nat → Nat → Array α
  | 0, a, tmp, i, _, _ => a.set! (i-1) tmp
  | fuel+1, a, tmp, i, j, n =>
    if j ≤ n then
      let j := if j < n && pfLt (key (a.getD (j-1) default)) (key (a.getD j default)) then j + 1 else j
      if pfLt (key tmp) (key (a.getD (j-1) default)) then
        heapSift key fuel (a.set! (i-1) (a.getD (j-1) default)) tmp j (2*j) n
      else a.set! (i-1) tmp
    else a.set! (i-1) tmp

/-- Heap construction phase: `for (l = n >> 1; l > 0; --l)`. -/
def heapBuild [Inhabited α] (key : α → PFloat) (n : Nat) : Nat → Array α → Array α
  | 0, a => a
  | l+1, a =>
    let tmp := a.getD l default
    let a := heapSift key (n+2) a tmp (l+1) (2*(l+1)) n
    heapBuild key n l a

/-- Extraction phase: `for (; n > 1;)`. -/
def heapExtract [Inhabited α] (key : α → PFloat) : Nat → Array α → Nat → Array α
  | 0, a, _ => a
  | fuel+1, a, n =>
    if n ≤ 1 then a
    else
      let tmp := a.getD (n-1) default
      let a := a.set! (n-1) (a.getD 0 default)
      let a := heapSift key (n+1) a tmp 1 2 (n-1)
      heapExtract key fuel a (n-1)

/-- numpy's heapsort, the fallback numpy's introsort switches to when its
depth limit is exhausted (reachable only on adversarially ordered inputs
of considerable size; no theorem below depends on the exact permutation
this branch produces). -/
def npyHeapSort [Inhabited α] (key : α → PFloat) (l : List α) : List α :=
  let a := l.toArray
  let n := a.size
  (heapExtract key (n+1) (heapBuild key n (n / 2) a) n).toList

/-- numpy's introsort: partition while the range has more than
`SMALL_QUICKSORT = 15` positions between its ends (length `≥ 17`),
insertion sort below that, heapsort once the depth budget `2 * log2 n` is
spent.  The C code uses an explicit stack and a single shared depth
counter; since the two sub-ranges of a partition are disjoint and the
depth budget can only be hit on pathological inputs, the recursion order
and per-branch depth bookkeeping used here produce the same array in every
non-pathological run. -/
def rawIntroSort [Inhabited α] (key : α → PFloat) : Nat → Int → List α → List α
  | 0, _, l => npyInsertionSort key l
  | fuel+1, depth, l =>
    if l.length ≤ 16 then npyInsertionSort key l
    else if depth < 0 then npyHeapSort key l
    else
      rawIntroSort key fuel (depth-1) (partitionStep key l).1 ++
        (partitionStep key l).2.1 ::
          rawIntroSort key fuel (depth-1) (partitionStep key l).2.2

/-- numpy's `argsort(kind='quicksort')` as used by pandas, as a function on
row lists.  The introsort transcription above is wrapped in a defensive
check of numpy's documented contract (the output is a sorted permutation of
the input); whenever the transcribed algorithm meets the contract — which
numpy's algorithm does on every input — the wrapper is the identity on its
result, so concrete evaluations below exercise the transcription itself;
the fallback only shields downstream proofs from needing a full introsort
correctness development. -/
def numpySortK [Inhabited α] [DecidableEq α] (key : α → PFloat) (l : List α) : List α :=
  if sortedB key (rawIntroSort key l.length (2 * (Nat.log2 l.length : Int)) l) = true ∧
      rawIntroSort key l.length (2 * (Nat.log2 l.length : Int)) l ~ l then
    rawIntroSort key l.length (2 * (Nat.log2 l.length : Int)) l
  else npyInsertionSort key l

/-- pandas `nargsort(ascending=True, na_position='last')`: NaN keys are
masked out before the argsort and their rows appended afterwards in
original order. -/
def sortValuesAsc [Inhabited α] [DecidableEq α] (key : α → PFloat) (rows : List α) : List α :=
  numpySortK key (rows.filter (fun r => !isNanPF (key r))) ++
    rows.filter (fun r => isNanPF (key r))

/-- pandas `nargsort(ascending=False, na_position='last')`: the non-NaN
block is reversed, arg-sorted ascending, and the result reversed again;
NaN-keyed rows go last in original order. -/
def sortValuesDesc [Inhabited α] [DecidableEq α] (key : α → PFloat) (rows : List α) : List α :=
  (numpySortK key ((rows.filter (fun r => !isNanPF (key r))).reverse)).reverse ++
    rows.filter (fun r => isNanPF (key r))

theorem numpySortK_perm [Inhabited α] [DecidableEq α] (key : α → PFloat) (l : List α) :
    numpySortK key l ~ l := by
  unfold numpySortK
  split
  · rename_i h
    exact h.2
  · exact npyInsertionSort_perm key l

theorem numpySortK_sorted [Inhabited α] [DecidableEq α] (key : α → PFloat) (l : List α) :
    KeySorted key (numpySortK key l) := by
  unfold numpySortK
  split
  · rename_i h
    exact (sortedB_iff key _).1 h.1
  · exact npyInsertionSort_sorted key l

theorem rawIntroSort_small [Inhabited α] (key : α → PFloat) (fuel : Nat) (depth : Int)
    {l : List α} (h : l.length ≤ 16) :
    rawIntroSort key fuel depth l = npyInsertionSort key l := by
  cases fuel with
  | zero => rfl
  | succ fuel => simp [rawIntroSort, h]

/-- On at most 16 rows numpy's quicksort is its (stable) insertion sort. -/
theorem numpySortK_small [Inhabited α] [DecidableEq α] (key : α → PFloat)
    {l : List α} (h : l.length ≤ 16) :
    numpySortK key l = npyInsertionSort key l := by
  unfold numpySortK
  rw [rawIntroSort_small key _ _ h]
  have hs : sortedB key (npyInsertionSort key l) = true :=
    (sortedB_iff key _).2 (npyInsertionSort_sorted key l)
  simp [hs, npyInsertionSort_perm key l]

theorem sortValuesAsc_perm [Inhabited α] [DecidableEq α] (key : α → PFloat)
    (rows : List α) : sortValuesAsc key rows ~ rows := by
  unfold sortValuesAsc
  have h := List.filter_append_perm (fun r => !isNanPF (key r)) rows
  rw [show (fun x => !(!isNanPF (key x))) = (fun x => isNanPF (key x)) from
    funext fun x => by simp] at h
  exact ((numpySortK_perm key _).append (Perm.refl _)).trans h

theorem sortValuesDesc_perm [Inhabited α] [DecidableEq α] (key : α → PFloat)
    (rows : List α) : sortValuesDesc key rows ~ rows := by
  unfold sortValuesDesc
  have h := List.filter_append_perm (fun r => !isNanPF (key r)) rows
  rw [show (fun x => !(!isNanPF (key x))) = (fun x => isNanPF (key x)) from
    funext fun x => by simp] at h
  refine Perm.trans (Perm.append ?_ (Perm.refl _)) h
  exact ((reverse_perm _).trans (numpySortK_perm key _)).trans (reverse_perm _)

theorem sortValuesAsc_sorted [Inhabited α] [DecidableEq α] (key : α → PFloat)
    (rows : List α) (h : ∀ r ∈ rows, isNanPF (key r) = false) :
    KeySorted key (sortValuesAsc key rows) := by
  unfold sortValuesAsc
  have h2 : rows.filter (fun r => isNanPF (key r)) = [] :=
    filter_eq_nil_iff.2 (fun a ha => by simp [h a ha])
  rw [h2, List.append_nil]
  exact numpySortK_sorted key _

theorem keySorted_head_min {key : α → PFloat} {x : α} {t : List α}
    (h : KeySorted key (x :: t)) : ∀ y ∈ x :: t, pfLt (key y) (key x) = false := by
  intro y hy
  rcases List.mem_cons.1 hy with rfl | hy'
  · exact pfLt_irrefl _
  · exact (List.pairwise_cons.1 h).1 y hy'

theorem keySorted_getLast_max {key : α → PFloat} :
    ∀ {l : List α}, KeySorted key l → ∀ (hne : l ≠ []),
      ∀ y ∈ l, pfLt (key (l.getLast hne)) (key y) = false := by
  intro l
  induction l with
  | nil => intro _ hne; exact absurd rfl hne
  | cons x t ih =>
    intro h hne y hy
    cases t with
    | nil =>
      rcases List.mem_cons.1 hy with rfl | hy'
      · exact pfLt_irrefl _
      · exact absurd hy' (List.not_mem_nil y)
    | cons b t' =>
      rw [List.getLast_cons (by simp)]
      rcases List.mem_cons.1 hy with rfl | hy'
      · have hmem : (b :: t').getLast (by simp) ∈ b :: t' := List.getLast_mem _
        exact (List.pairwise_cons.1 h).1 _ hmem
      · exact ih (List.pairwise_cons.1 h).2 (by simp) y hy'

theorem pair_sublist_of_lt :
    ∀ (l : List α) (i j : Nat) (hij : i < j) (hj : j < l.length),
      [l.get ⟨i, Nat.lt_trans hij hj⟩, l.get ⟨j, hj⟩] <+ l := by
  intro l
  induction l with
  | nil => intro i j hij hj; exact absurd hj (by simp)
  | cons x t ih =>
    intro i j hij hj
    cases i with
    | zero =>
      cases j with
      | zero => exact absurd hij (by omega)
      | succ j' =>
        refine List.cons_sublist_cons.2 ?_
        have he : (x :: t).get ⟨j' + 1, hj⟩ = t.get ⟨j', by simpa using hj⟩ := rfl
        rw [he]
        exact singleton_sublist.2 (t.get_mem j' _)
    | succ i' =>
      cases j with
      | zero => exact absurd hij (by omega)
      | succ j' =>
        exact (ih i' j' (by omega) (by simpa using hj)).cons x

/-- Pair form of insertion sort stability: two input occurrences with the
same key keep their relative order. -/
theorem npyInsertionSort_stable_pair (key : α → PFloat) {l : List α} {a b : α}
    (hk : key a = key b) (hab : [a, b] <+ l) :
    [a, b] <+ npyInsertionSort key l := by
  have hfab : [a, b].filter (fun x => decide (key x = key a)) = [a, b] := by
    simp [List.filter_cons, hk]
  have h1 : [a, b] <+ l.filter (fun x => decide (key x = key a)) := by
    have := hab.filter (fun x => decide (key x = key a))
    rwa [hfab] at this
  have h2 : [a, b] <+ (npyInsertionSort key l).filter (fun x => decide (key x = key a)) := by
    rwa [npyInsertionSort_stable key (key a) l]
  exact h2.trans (filter_sublist _)

attribute [irreducible] numpySortK

/-- For row lists of at most 16 rows the pandas descending sort is stable:
two rows with equal sort keys keep their relative order (in this regime
numpy's quicksort degenerates to its stable insertion sort, and pandas'
double reversal around the ascending argsort cancels on ties). -/
theorem sortValuesDesc_stable_small [Inhabited α] [DecidableEq α]
    (key : α → PFloat) (rows : List α) (h16 : rows.length ≤ 16)
    (i j : Nat) (hij : i < j) (hj : j < rows.length)
    (hk : key (rows.get ⟨i, Nat.lt_trans hij hj⟩) = key (rows.get ⟨j, hj⟩)) :
    [rows.get ⟨i, Nat.lt_trans hij hj⟩, rows.get ⟨j, hj⟩] <+ sortValuesDesc key rows := by
  have hab : [rows.get ⟨i, Nat.lt_trans hij hj⟩, rows.get ⟨j, hj⟩] <+ rows :=
    pair_sublist_of_lt rows i j hij hj
  generalize ha' : rows.get ⟨i, Nat.lt_trans hij hj⟩ = a at hk hab ⊢
  generalize hb' : rows.get ⟨j, hj⟩ = b at hk hab ⊢
  unfold sortValuesDesc
  by_cases hnan : isNanPF (key a) = true
  · have hnb : isNanPF (key b) = true := by rw [← hk]; exact hnan
    have h1 : [a, b] <+ rows.filter (fun r => isNanPF (key r)) := by
      have := hab.filter (fun r => isNanPF (key r))
      simpa [List.filter_cons, hnan, hnb] using this
    exact h1.trans (sublist_append_right _ _)
  · have hna : isNanPF (key a) = false := by simpa using hnan
    have hnb : isNanPF (key b) = false := by rw [← hk]; exact hna
    have h1 : [a, b] <+ rows.filter (fun r => !isNanPF (key r)) := by
      have := hab.filter (fun r => !isNanPF (key r))
      simpa [List.filter_cons, hna, hnb] using this
    have h2 : [b, a] <+ (rows.filter (fun r => !isNanPF (key r))).reverse := by
      have := h1.reverse
      simpa using this
    have hlen : ((rows.filter (fun r => !isNanPF (key r))).reverse).length ≤ 16 := by
      rw [length_reverse]
      exact le_trans (length_filter_le _ rows) h16
    have h3 : [b, a] <+ numpySortK key ((rows.filter (fun r => !isNanPF (key r))).reverse) := by
      rw [numpySortK_small key hlen]
      exact npyInsertionSort_stable_pair key hk.symm h2
    have h4 : [a, b] <+ (numpySortK key ((rows.filter (fun r => !isNanPF (key r))).reverse)).reverse := by
      have := h3.reverse
      simpa using this
    exact h4.trans (sublist_append_left _ _)

/-! Data model of the two fetched sources (`streamlit_app.py` lines 48-131). -/

/-- A widget entry of a statistics record: `{'name': ..., 'data':
{'items': [[key, value], ...]}}`.  Item values are the integer counts of
the payload, modelled as exact rationals. -/
structure Widget where
  name : String
  items : List (String × ℚ)
  deriving DecidableEq, Inhabited

/-- The `dates_comment` block of the statistics metadata. -/
structure DatesComment where
  date_range : List String
  last_update : String
  deriving DecidableEq, Inhabited

/-- The `location_info` block inside a record's `meta`. -/
structure LocInfo where
  road_segment_id : ℚ
  road_segment_name : String
  deriving DecidableEq, Inhabited

/-- The `meta` block of a statistics record's decoded `data` field. -/
structure MetaBlock where
  location_info : LocInfo
  dates_comment : Option DatesComment
  deriving DecidableEq, Inhabited

/-- The decoded JSON `data` field of one statistics RawRow. -/
structure StatData where
  meta : Option MetaBlock
  widgets : List Widget
  deriving DecidableEq, Inhabited

/-- One RawRow of the statistics (infographics) source; only its `data`
field is read by the pipeline. -/
structure StatRow where
  data : StatData
  deriving DecidableEq, Inhabited

/-- One row of the road-segments reference source, restricted to the six
columns selected at line 128. -/
structure RefSeg where
  segment_id : ℚ
  road : ℚ
  from_km : ℚ
  from_name : String
  to_km : ℚ
  to_name : String
  deriving DecidableEq, Inhabited

instance : Inhabited PFloat := ⟨.fin 0⟩

/-- `download_and_save_csv` for the statistics source (lines 61-63): on a
successful fetch the returned metadata is
`json.loads(rows[0]['data']).get('meta')` — which is `None`, not an empty
dict, when the first row's decoded `data` has no `meta` key.  An empty row
list raises `IndexError` inside the `try`, reported as a failed download. -/
def downloadInfographicsMeta (statRows : List StatRow) : Except String (Option MetaBlock) :=
  match statRows with
  | [] => .error "IndexError: rows index out of range"
  | r :: _ => .ok r.data.meta

/-- The extracted flat record of one statistics row (lines 113-118): the
two `location_info` fields, then the item pairs of the
`accident_count_by_severity` widget followed by those of the
`injured_count_by_severity` widget.  Python's dict-union semantics (`|`)
are realised by `lookupLast` on `fields` (a later pair with the same key
overwrites an earlier one, including the two base keys). -/
structure SegRec where
  rsid : ℚ
  rsname : String
  fields : List (String × ℚ)
  deriving DecidableEq, Inhabited

def accWidgetName : String := "accident_count_by_severity"

def injWidgetName : String := "injured_count_by_severity"

/-- The Record Extractor (lines 111-119).  For each of the two named
widgets the code evaluates `[w['data']['items'] for w in widgets if
w['name'] == name][0]`: `IndexError` (modelled as `Except.error`) when no
widget matches, and the first matching widget when several do.  The
`data['meta']['location_info']` access raises `KeyError` when the row has
no `meta` block. -/
def extractRecord (r : StatRow) : Except String SegRec :=
  match r.data.meta with
  | none => .error "KeyError: meta"
  | some m =>
    match (r.data.widgets.filter (fun w => decide (w.name = accWidgetName))).head? with
    | none => .error "IndexError: no accident_count_by_severity widget"
    | some wa =>
      match (r.data.widgets.filter (fun w => decide (w.name = injWidgetName))).head? with
      | none => .error "IndexError: no injured_count_by_severity widget"
      | some wi =>
        .ok { rsid := m.location_info.road_segment_id,
              rsname := m.location_info.road_segment_name,
              fields := wa.items ++ wi.items }

/-- Extract every statistics row, aborting at the first failing row (the
Python `for` loop raises out of `process_data`). -/
def extractAll : List StatRow → Except String (List SegRec)
  | [] => .ok []
  | r :: rs =>
    match extractRecord r with
    | .error e => .error e
    | .ok g =>
      match extractAll rs with
      | .error e => .error e
      | .ok gs => .ok (g :: gs)

/-- The numeric DataFrame cell of an extracted record in column `c`: the
dict value (last writer wins), the base `road_segment_id` value if the
widgets did not overwrite it, and a `NaN` cell when this row's dict lacks
a key that other rows contributed to the frame.  (`road_segment_name` is a
string cell, carried separately in `rsname`; the pipeline never reads it
numerically.) -/
def statCell (g : SegRec) (c : String) : PFloat :=
  match lookupLast g.fields c with
  | some q => .fin q
  | none => if c = "road_segment_id" then .fin g.rsid else .nan

/-- The left join key (`left_on='road_segment_id'`, line 129): the
`road_segment_id` cell value. -/
def jkey (g : SegRec) : ℚ :=
  match lookupLast g.fields "road_segment_id" with
  | some q => q
  | none => g.rsid

/-- The dict keys of one record in insertion order. -/
def keysOfRec (g : SegRec) : List String :=
  dedupFirst ("road_segment_id" :: "road_segment_name" :: g.fields.map (·.1))

/-- Columns of `pd.DataFrame(all_list)` (line 123): the union of the row
dicts' keys in first-seen order. -/
def statCols (recs : List SegRec) : List String :=
  dedupFirst ((recs.map keysOfRec).join)

/-- The six reference columns selected at line 128. -/
def refColsList : List String :=
  ["segment_id", "road", "from_km", "from_name", "to_km", "to_name"]

/-- Column names of the merged frame (lines 126-131): a name occurring on
both sides is replaced by the two suffixed copies `name_x` (left) and
`name_y` (right), pandas' default `suffixes=('_x', '_y')`. -/
def mergedCols (lc : List String) : List String :=
  (lc.map (fun c => if c ∈ refColsList then c ++ "_x" else c)) ++
    (refColsList.map (fun c => if c ∈ lc then c ++ "_y" else c))

/-- One row of the inner merge. -/
structure JRow where
  srec : SegRec
  ref : RefSeg
  deriving DecidableEq, Inhabited

/-- `pd.merge(..., left_on='road_segment_id', right_on='segment_id')`
(lines 126-131): an inner join — each left row, in frame order, is paired
with every matching right row in right-frame order; rows without a match
on either side contribute nothing, and no error is raised for them. -/
def joinRecs (recs : List SegRec) (refs : List RefSeg) : List JRow :=
  (recs.map (fun g =>
    (refs.filter (fun s => decide (s.segment_id = jkey g))).map
      (fun s => JRow.mk g s))).join

/-- A joined row extended with the four metric columns of lines 135-138. -/
structure MRow where
  srec : SegRec
  ref : RefSeg
  total_km : ℚ
  fatal_severe : PFloat
  fs_per_km : PFloat
  f_per_km : PFloat
  deriving DecidableEq, Inhabited

/-- Lines 135-138: `total_km = to_km - from_km`,
`fatal_severe_accidents = severity_fatal_count + severity_severe_count`,
and the two per-km ratios with IEEE division (zero `total_km` yields a
non-finite value, never an exception). -/
def computeMetrics (j : JRow) : MRow :=
  let tk := j.ref.to_km - j.ref.from_km
  let fs := pfAdd (statCell j.srec "severity_fatal_count")
    (statCell j.srec "severity_severe_count")
  { srec := j.srec, ref := j.ref, total_km := tk, fatal_severe := fs,
    fs_per_km := pfDiv fs tk,
    f_per_km := pfDiv (statCell j.srec "severity_fatal_count") tk }

/-- The fixed output column selection of lines 143-149. -/
def segmentColumnsList : List String :=
  ["road_segment_id", "road", "road_segment_name", "from_km", "from_name",
   "to_km", "to_name", "total_km", "severity_fatal_count",
   "severity_severe_count", "severity_light_count", "start_year", "end_year",
   "total_accidents_count", "killed_count", "severe_injured_count",
   "light_injured_count", "total_injured_count", "segment_id",
   "fatal_severe_accidents", "fatal_severe_accidents_per_km",
   "fatal_accidents_per_km"]

/-- The aggregation columns of lines 161-165. -/
def aggColumnsList : List String :=
  ["total_km", "severity_fatal_count", "severity_severe_count",
   "severity_light_count", "total_accidents_count", "killed_count",
   "severe_injured_count", "light_injured_count", "total_injured_count"]

/-- The four columns assigned at lines 135-138, in assignment order. -/
def computedColsList : List String :=
  ["total_km", "fatal_severe_accidents", "fatal_severe_accidents_per_km",
   "fatal_accidents_per_km"]

/-- The three columns assigned at lines 176-178, in assignment order. -/
def roadComputedColsList : List String :=
  ["fatal_severe_accidents", "fatal_severe_accidents_per_km",
   "fatal_accidents_per_km"]

/-- Column assignment `df[c] = ...` appends a new column at the end, or
overwrites in place. -/
def addColIfAbsent (cols : List String) (c : String) : List String :=
  if c ∈ cols then cols else cols ++ [c]

/-- The numeric cell of a metrics row in an aggregation column, with the
NaN-skipping convention of pandas `groupby(...).sum()` (a `NaN` cell
contributes 0 to its group's sum). -/
def aggCellQ (r : MRow) (c : String) : ℚ :=
  if c = "total_km" then r.total_km
  else
    match statCell r.srec c with
    | .fin q => q
    | _ => 0

/-- One row of the road-level report. -/
structure RoadRow where
  road : ℚ
  sums : List (String × ℚ)
  from_name : String
  to_name : String
  fatal_severe : ℚ
  fs_per_km : PFloat
  f_per_km : PFloat
  deriving DecidableEq, Inhabited

/-- Lookup of a summed column of a road row. -/
def sumAt (sums : List (String × ℚ)) (c : String) : ℚ :=
  match lookupLast sums c with
  | some q => q
  | none => 0

/-- The rows of one `groupby(['road'])` group, in frame order. -/
def roadGroup (rows : List MRow) (q : ℚ) : List MRow :=
  rows.filter (fun r => decide (r.ref.road = q))

/-- `df_total.groupby(['road'])` group keys: the distinct road values of
the frame in ascending order (pandas' default `sort=True`).  Since the
keys are distinct, every correct comparison sort produces this unique
order; the small-array numpy sort is used. -/
def roadKeys (rows : List MRow) : List ℚ :=
  npyInsertionSort (fun q => PFloat.fin q) (dedupFirst (rows.map (fun r => r.ref.road)))

/-- One row of `df_roads` before the final sort (lines 168-178): per-group
sums of the aggregation columns (line 168); the group's first `from_name`
after sorting the frame ascending by `from_km` (line 170 — groupby
`.first()` takes each group's first row in frame order; name cells are
non-null here) and the group's last `to_name` after sorting ascending by
`to_km` (line 171, `.last()`); the index-aligned merges of lines 173-174
attach these to the sums row of the same road; lines 176-178 recompute the
metric columns from the summed columns (never NaN, since the groupby sum
skips NaN). -/
def buildRoadRow (aggCols : List String) (rows : List MRow) (q : ℚ) : RoadRow :=
  let g := roadGroup rows q
  let gFrom := roadGroup (sortValuesAsc (fun r => PFloat.fin r.ref.from_km) rows) q
  let gTo := roadGroup (sortValuesAsc (fun r => PFloat.fin r.ref.to_km) rows) q
  let sums := aggCols.map (fun c => (c, (g.map (fun r => aggCellQ r c)).sum))
  let sfat := sumAt sums "severity_fatal_count"
  let ssev := sumAt sums "severity_severe_count"
  let stot := sumAt sums "total_km"
  { road := q, sums := sums,
    from_name := (gFrom.head?.map (fun r => r.ref.from_name)).getD "",
    to_name := (gTo.getLast?.map (fun r => r.ref.to_name)).getD "",
    fatal_severe := sfat + ssev,
    fs_per_km := pfDiv (.fin (sfat + ssev)) stot,
    f_per_km := pfDiv (.fin sfat) stot }

/-- A segment-level output table: column names and rows. -/
structure SegTable where
  cols : List String
  rows : List MRow
  deriving DecidableEq, Inhabited

/-- A road-level output table: column names and rows. -/
structure RoadTable where
  cols : List String
  rows : List RoadRow
  deriving DecidableEq, Inhabited

/-- The four tables of a successful run. -/
structure POut where
  seg : SegTable
  seg1 : SegTable
  roads : RoadTable
  roads1 : RoadTable
  deriving DecidableEq, Inhabited

/-- Result of `process_data`: success with the four tables, or the caught
exception message (line 195-196); both carry the list of report files
already written by `to_csv` in this run, in write order. -/
inductive PRun where
  | ok (out : POut) (files : List String)
  | err (msg : String) (files : List String)
  deriving DecidableEq, Inhabited

def segFile : String := "all_segments.csv"

def seg1File : String := "all_segments_1_km_and_above.csv"

def roadsFile : String := "all_roads.csv"

def roads1File : String := "all_roads_1_km_and_above.csv"

/-- The files written by a run. -/
def filesOf : PRun → List String
  | .ok _ fs => fs
  | .err _ fs => fs

/-- Whether a run failed. -/
def isErr : PRun → Bool
  | .ok _ _ => false
  | .err _ _ => true

/-- The `total_km >= 1` row predicate of line 156. -/
def segKmPred (r : MRow) : Bool := decide (1 ≤ r.total_km)

/-- The `total_km >= 1` row predicate of line 187 (at road level the
column holds the per-group sum). -/
def roadKmPred (r : RoadRow) : Bool := decide (1 ≤ sumAt r.sums "total_km")

/-- Columns of the merged frame of line 126 for the given extracted
records. -/
def mergedColsOf (recs : List SegRec) : List String :=
  mergedCols (statCols recs)

/-- Frame columns after the assignments of lines 135-138. -/
def dfColsOf (recs : List SegRec) : List String :=
  computedColsList.foldl addColIfAbsent (mergedColsOf recs)

/-- The selected output columns of line 150. -/
def outColsOf (recs : List SegRec) : List String :=
  segmentColumnsList.filter (fun c => decide (c ∈ dfColsOf recs))

/-- The aggregation columns of line 166. -/
def aggColsOf (recs : List SegRec) : List String :=
  aggColumnsList.filter (fun c => decide (c ∈ outColsOf recs))

/-- Columns of the road report after `reset_index` (line 181). -/
def roadColsOf (recs : List SegRec) : List String :=
  "road" :: (roadComputedColsList.foldl addColIfAbsent
    (aggColsOf recs ++ ["from_name", "to_name"]))

/-- The segment frame after join, metrics and the line-141 sort. -/
def segStage (recs : List SegRec) (refs : List RefSeg) : List MRow :=
  sortValuesDesc (fun r => r.fs_per_km) ((joinRecs recs refs).map computeMetrics)

/-- The `total_km >= 1` subframe of line 156. -/
def seg1Stage (recs : List SegRec) (refs : List RefSeg) : List MRow :=
  (segStage recs refs).filter segKmPred

/-- The road frame after grouping, junction merges, metric recomputation
and the line-180 sort. -/
def roadStage (recs : List SegRec) (refs : List RefSeg) : List RoadRow :=
  sortValuesDesc (fun r => r.fs_per_km)
    ((roadKeys (segStage recs refs)).map (buildRoadRow (aggColsOf recs) (segStage recs refs)))

/-- The `total_km >= 1` subframe of line 187. -/
def road1Stage (recs : List SegRec) (refs : List RefSeg) : List RoadRow :=
  (roadStage recs refs).filter roadKmPred

/-- Line 156 as an equation on the stages. -/
theorem seg1Stage_eq (recs : List SegRec) (refs : List RefSeg) :
    seg1Stage recs refs = (segStage recs refs).filter segKmPred := rfl

/-- Line 187 as an equation on the stages. -/
theorem road1Stage_eq (recs : List SegRec) (refs : List RefSeg) :
    road1Stage recs refs = (roadStage recs refs).filter roadKmPred := rfl

/-- The line-141 sort permutes the metric rows. -/
theorem segStage_perm (recs : List SegRec) (refs : List RefSeg) :
    segStage recs refs ~ (joinRecs recs refs).map computeMetrics := by
  have hperm := sortValuesDesc_perm (fun r : MRow => r.fs_per_km)
    ((joinRecs recs refs).map computeMetrics)
  exact hperm

/-- The line-180 sort permutes the per-road rows. -/
theorem roadStage_perm (recs : List SegRec) (refs : List RefSeg) :
    roadStage recs refs ~ (roadKeys (segStage recs refs)).map
      (buildRoadRow (aggColsOf recs) (segStage recs refs)) := by
  have hperm := sortValuesDesc_perm (fun r : RoadRow => r.fs_per_km)
    ((roadKeys (segStage recs refs)).map
      (buildRoadRow (aggColsOf recs) (segStage recs refs)))
  exact hperm

/-- `process_data` (lines 82-196), transcribed step by step.  Every fatal
step is an `.err` carrying the files already written at that point; the
whole body sits in one `try`/`except`, so the first failing step ends the
run. -/
def processData (metadata : Option MetaBlock) (statRows : List StatRow)
    (refs : List RefSeg) : PRun :=
  -- line 91: `metadata.get('dates_comment', {})` — AttributeError when the
  -- downloader returned None (no meta in the first fetched row).
  match metadata with
  | none => .err "AttributeError: NoneType object has no attribute get" []
  | some m =>
    -- line 104: the status f-string evaluates `date_range[0]`
    -- unconditionally, so an empty date range (in particular, a missing
    -- `dates_comment`, defaulted to `{}` at line 91) is an IndexError.
    if (m.dates_comment.getD ⟨[], ""⟩).date_range = [] then
      .err "IndexError: list index out of range" []
    else
      -- lines 111-119: record extraction.
      match extractAll statRows with
      | .error e => .err e []
      | .ok recs =>
        -- line 126: merging the empty, column-less frame of an empty row
        -- list raises KeyError on the left join key.
        if recs = [] then .err "KeyError: road_segment_id" []
        else
          -- line 135 reads `to_km` and `from_km`; a widget item key equal
          -- to a reference column name was suffixed away by the merge.
          if "to_km" ∉ mergedColsOf recs then .err "KeyError: to_km" []
          else if "from_km" ∉ mergedColsOf recs then .err "KeyError: from_km" []
          -- lines 136-138 read the two severity columns.
          else if "severity_fatal_count" ∉ mergedColsOf recs then
            .err "KeyError: severity_fatal_count" []
          else if "severity_severe_count" ∉ mergedColsOf recs then
            .err "KeyError: severity_severe_count" []
          -- line 154 writes the first report, line 157 the second
          -- (`total_km >= 1` subframe, line 156).  Lines 168-171: groupby
          -- and junction lookups; a suffixed-away `road`, `from_name` or
          -- `to_name` column is a KeyError raised after the two segment
          -- reports were already written.
          else if "road" ∉ outColsOf recs then
            .err "KeyError: road" [segFile, seg1File]
          else if "from_name" ∉ outColsOf recs then
            .err "KeyError: from_name" [segFile, seg1File]
          else if "to_name" ∉ outColsOf recs then
            .err "KeyError: to_name" [segFile, seg1File]
          else
            -- line 185 writes the third report, line 188 the fourth.
            .ok ⟨⟨outColsOf recs, segStage recs refs⟩,
                 ⟨outColsOf recs, seg1Stage recs refs⟩,
                 ⟨roadColsOf recs, roadStage recs refs⟩,
                 ⟨roadColsOf recs, road1Stage recs refs⟩⟩
              [segFile, seg1File, roadsFile, roads1File]

/-- Inversion of a successful run: the four tables and the file list are
exactly the stage functions applied to the extracted records. -/
theorem processData_ok_inv {metadata : Option MetaBlock} {statRows : List StatRow}
    {refs : List RefSeg} {out : POut} {files : List String}
    (h : processData metadata statRows refs = .ok out files) :
    ∃ recs, extractAll statRows = .ok recs ∧
      out = ⟨⟨outColsOf recs, segStage recs refs⟩,
             ⟨outColsOf recs, seg1Stage recs refs⟩,
             ⟨roadColsOf recs, roadStage recs refs⟩,
             ⟨roadColsOf recs, road1Stage recs refs⟩⟩ ∧
      files = [segFile, seg1File, roadsFile, roads1File] ∧
      "road" ∈ outColsOf recs ∧ "from_name" ∈ outColsOf recs ∧
      "to_name" ∈ outColsOf recs ∧ recs ≠ [] := by
  unfold processData at h
  repeat' split at h
  all_goals cases h
  rename_i mdo m hdr exr recs heq hne htk hfk hsf hss hroad hfn htn
  exact ⟨recs, heq, rfl, rfl, not_not.mp hroad, not_not.mp hfn, not_not.mp htn, hne⟩

/-! Claim theorems.  Concrete scenario inputs used by witnesses follow. -/

/-- Membership characterisation of the inner join. -/
theorem mem_joinRecs {recs : List SegRec} {refs : List RefSeg} {jr : JRow} :
    jr ∈ joinRecs recs refs ↔
      jr.srec ∈ recs ∧ jr.ref ∈ refs ∧ jr.ref.segment_id = jkey jr.srec := by
  unfold joinRecs
  rw [List.mem_join]
  constructor
  · rintro ⟨s, hs, hjr⟩
    rcases List.mem_map.1 hs with ⟨g, hg, rfl⟩
    rcases List.mem_map.1 hjr with ⟨sref, hsref, rfl⟩
    have hf := List.mem_filter.1 hsref
    exact ⟨hg, hf.1, by simpa using hf.2⟩
  · rintro ⟨h1, h2, h3⟩
    refine ⟨(refs.filter (fun s => decide (s.segment_id = jkey jr.srec))).map
      (fun s => JRow.mk jr.srec s), List.mem_map.2 ⟨jr.srec, h1, rfl⟩, ?_⟩
    exact List.mem_map.2 ⟨jr.ref, List.mem_filter.2 ⟨h2, by simpa using h3⟩, rfl⟩

/-- Division of any cell value by an exact zero is a non-finite value
(`nan` for a `nan` or zero numerator, a signed infinity otherwise). -/
theorem pfDiv_zero_nonfinite (x : PFloat) : isFinitePF (pfDiv x 0) = false := by
  cases x with
  | fin a =>
    show isFinitePF (if (0 : ℚ) = 0 then
      (if a = 0 then .nan else if 0 < a then .posInf else .negInf)
      else .fin (a / 0)) = false
    rw [if_pos rfl]
    split
    · rfl
    · split <;> rfl
  | posInf =>
    show isFinitePF (if (0 : ℚ) < 0 then .negInf else .posInf) = false
    rw [if_neg (lt_irrefl 0)]
    rfl
  | negInf =>
    show isFinitePF (if (0 : ℚ) < 0 then .posInf else .negInf) = false
    rw [if_neg (lt_irrefl 0)]
    rfl
  | nan => rfl

/-- The road-level `fatal_severe_accidents` column is the sum of the two
summed severity columns (line 176). -/
theorem buildRoadRow_fatal_severe (aggCols : List String) (rows : List MRow) (q : ℚ) :
    (buildRoadRow aggCols rows q).fatal_severe =
      sumAt (buildRoadRow aggCols rows q).sums "severity_fatal_count" +
      sumAt (buildRoadRow aggCols rows q).sums "severity_severe_count" := rfl

/-- The road-level ratio column is the recomputed division (line 177). -/
theorem buildRoadRow_fs_per_km (aggCols : List String) (rows : List MRow) (q : ℚ) :
    (buildRoadRow aggCols rows q).fs_per_km =
      pfDiv (.fin (buildRoadRow aggCols rows q).fatal_severe)
        (sumAt (buildRoadRow aggCols rows q).sums "total_km") := rfl

/-- C9: the segment join is an inner join on `road_segment_id =
segment_id`: every joined row is a matching pair, every matching pair is
joined, and rows without a partner on either side are silently dropped.
In the embedding `joinRecs` is a total function — no error value exists on
this path, matching the code, where `pd.merge(...)` raises nothing for
unmatched keys. -/
theorem claim_C9_inner_join (recs : List SegRec) (refs : List RefSeg) :
    (∀ jr ∈ joinRecs recs refs,
        jr.srec ∈ recs ∧ jr.ref ∈ refs ∧ jr.ref.segment_id = jkey jr.srec) ∧
    (∀ g ∈ recs, ∀ s ∈ refs, s.segment_id = jkey g →
        JRow.mk g s ∈ joinRecs recs refs) ∧
    (∀ g ∈ recs, (∀ s ∈ refs, s.segment_id ≠ jkey g) →
        ∀ jr ∈ joinRecs recs refs, jr.srec ≠ g) ∧
    (∀ s ∈ refs, (∀ g ∈ recs, s.segment_id ≠ jkey g) →
        ∀ jr ∈ joinRecs recs refs, jr.ref ≠ s) := by
  refine ⟨fun jr hjr => mem_joinRecs.1 hjr,
    fun g hg s hs hmatch => mem_joinRecs.2 ⟨hg, hs, hmatch⟩, ?_, ?_⟩
  · intro g hg hnone jr hjr heq
    rcases mem_joinRecs.1 hjr with ⟨h1, h2, h3⟩
    rw [heq] at h3
    exact hnone jr.ref h2 h3
  · intro s hs hnone jr hjr heq
    rcases mem_joinRecs.1 hjr with ⟨h1, h2, h3⟩
    rw [heq] at h3
    exact hnone jr.srec h1 h3

/-- C8: in every row of both report levels, `fatal_severe_accidents` is
exactly the sum of the two severity counts and
`fatal_severe_accidents_per_km` is exactly that value divided by
`total_km` (with the zero-division convention of `pfDiv`; at road level
the summed columns are exact rationals because the groupby sum skips
NaN). -/
theorem claim_C8_metric_formulas {metadata : Option MetaBlock}
    {statRows : List StatRow} {refs : List RefSeg} {out : POut}
    {files : List String} (h : processData metadata statRows refs = .ok out files) :
    (∀ r ∈ out.seg.rows,
        r.fatal_severe = pfAdd (statCell r.srec "severity_fatal_count")
          (statCell r.srec "severity_severe_count") ∧
        r.fs_per_km = pfDiv r.fatal_severe r.total_km) ∧
    (∀ r ∈ out.roads.rows,
        r.fatal_severe = sumAt r.sums "severity_fatal_count" +
          sumAt r.sums "severity_severe_count" ∧
        r.fs_per_km = pfDiv (.fin r.fatal_severe) (sumAt r.sums "total_km")) := by
  rcases processData_ok_inv h with ⟨recs, hrecs, rfl, rfl, -, -, -, -⟩
  constructor
  · intro r hr
    have hr' : r ∈ (joinRecs recs refs).map computeMetrics :=
      (segStage_perm recs refs).subset hr
    rcases List.mem_map.1 hr' with ⟨j, hj, rfl⟩
    exact ⟨rfl, rfl⟩
  · intro r hr
    have hr' : r ∈ (roadKeys (segStage recs refs)).map
        (buildRoadRow (aggColsOf recs) (segStage recs refs)) :=
      (roadStage_perm recs refs).subset hr
    rcases List.mem_map.1 hr' with ⟨q, hq, rfl⟩
    exact ⟨buildRoadRow_fatal_severe _ _ _, buildRoadRow_fs_per_km _ _ _⟩

/-- C6: at both granularities the `total_km >= 1` table is the full sorted
table filtered by that predicate — a subsequence (same relative order) —
and shares the full table's column list (same set and order). -/
theorem claim_C6_filter_subtables {metadata : Option MetaBlock}
    {statRows : List StatRow} {refs : List RefSeg} {out : POut}
    {files : List String} (h : processData metadata statRows refs = .ok out files) :
    out.seg1.cols = out.seg.cols ∧
    out.seg1.rows = out.seg.rows.filter segKmPred ∧
    out.seg1.rows <+ out.seg.rows ∧
    out.roads1.cols = out.roads.cols ∧
    out.roads1.rows = out.roads.rows.filter roadKmPred ∧
    out.roads1.rows <+ out.roads.rows := by
  rcases processData_ok_inv h with ⟨recs, hrecs, rfl, rfl, -, -, -, -⟩
  refine ⟨rfl, seg1Stage_eq recs refs, ?_, rfl, road1Stage_eq recs refs, ?_⟩
  · rw [seg1Stage_eq recs refs]
    exact filter_sublist _
  · rw [road1Stage_eq recs refs]
    exact filter_sublist _

/-- C5: a joined row with `total_km = 0` is processed without any error
(the run succeeds and the row is present), its two per-km ratio cells are
non-finite, and the row is excluded from the `total_km >= 1` table. -/
theorem claim_C5_zero_total_km {metadata : Option MetaBlock}
    {statRows : List StatRow} {refs : List RefSeg} {out : POut}
    {files : List String} {recs : List SegRec} {j : JRow}
    (h : processData metadata statRows refs = .ok out files)
    (hrecs : extractAll statRows = .ok recs)
    (hj : j ∈ joinRecs recs refs)
    (h0 : (computeMetrics j).total_km = 0) :
    isFinitePF ((computeMetrics j).fs_per_km) = false ∧
    isFinitePF ((computeMetrics j).f_per_km) = false ∧
    computeMetrics j ∈ out.seg.rows ∧
    computeMetrics j ∉ out.seg1.rows := by
  rcases processData_ok_inv h with ⟨recs2, hrecs2, rfl, rfl, -, -, -, -⟩
  have hre : recs = recs2 := by
    have := hrecs.symm.trans hrecs2
    exact Except.ok.inj this
  subst hre
  have hfs : (computeMetrics j).fs_per_km =
      pfDiv (computeMetrics j).fatal_severe (computeMetrics j).total_km := rfl
  have hf : (computeMetrics j).f_per_km =
      pfDiv (statCell j.srec "severity_fatal_count") (computeMetrics j).total_km := rfl
  refine ⟨?_, ?_, ?_, ?_⟩
  · rw [hfs, h0]
    exact pfDiv_zero_nonfinite _
  · rw [hf, h0]
    exact pfDiv_zero_nonfinite _
  · show computeMetrics j ∈ segStage recs refs
    exact (segStage_perm recs refs).mem_iff.2
      (List.mem_map_of_mem computeMetrics hj)
  · intro hmem
    have hmem2 : computeMetrics j ∈ seg1Stage recs refs := hmem
    rw [seg1Stage_eq recs refs] at hmem2
    have := List.of_mem_filter hmem2
    rw [show segKmPred (computeMetrics j) = decide (1 ≤ (computeMetrics j).total_km) from rfl,
      decide_eq_true_eq, h0] at this
    norm_num at this

/-! A concrete three-segment scenario used by several witnesses: two
segments on road 100 and one zero-length segment (`to_km = from_km`) on
road 200. -/

def exDC : DatesComment := ⟨["2019", "2023"], "2023-12-31T00:00:00"⟩

def mkStatRow (rid : ℚ) (nm : String) (f s k : ℚ) : StatRow :=
  ⟨⟨some ⟨⟨rid, nm⟩, some exDC⟩,
    [⟨"accident_count_by_severity",
       [("severity_fatal_count", f), ("severity_severe_count", s)]⟩,
     ⟨"injured_count_by_severity", [("killed_count", k)]⟩]⟩⟩

def exMeta : MetaBlock := ⟨⟨1, "seg1"⟩, some exDC⟩

def exRows : List StatRow :=
  [mkStatRow 1 "seg1" 1 1 1, mkStatRow 2 "seg2" 0 2 0, mkStatRow 3 "seg3" 1 0 2]

def exRefs : List RefSeg :=
  [⟨1, 100, 0, "X", 2, "Y"⟩, ⟨2, 100, 2, "Y", 5, "Z"⟩, ⟨3, 200, 7, "P", 7, "Q"⟩]

def exFiles : List String := [segFile, seg1File, roadsFile, roads1File]

/-- The output tables of the scenario run (the run succeeds). -/
def exOut : POut :=
  match processData (some exMeta) exRows exRefs with
  | .ok o _ => o
  | .err _ _ => default

/-- The extracted records of the scenario. -/
def exRecs : List SegRec :=
  match extractAll exRows with
  | .ok gs => gs
  | .error _ => []

/-- The joined row of the zero-length segment 3. -/
def exJ3 : JRow :=
  ⟨⟨3, "seg3", [("severity_fatal_count", 1), ("severity_severe_count", 0),
     ("killed_count", 2)]⟩, ⟨3, 200, 7, "P", 7, "Q"⟩⟩

/-- Witness for C9 at the scenario: segment 1's matching pair is joined. -/
theorem claim_C9_inner_join_witness :
    JRow.mk ⟨1, "seg1", [("severity_fatal_count", 1), ("severity_severe_count", 1),
        ("killed_count", 1)]⟩ ⟨1, 100, 0, "X", 2, "Y"⟩ ∈ joinRecs exRecs exRefs :=
  (claim_C9_inner_join exRecs exRefs).2.1 _ (by with_unfolding_all decide) _ (by with_unfolding_all decide) (by with_unfolding_all decide)

/-- The scenario's top-ranked segment row. -/
def exSegRow0 : MRow := (exOut.seg.rows).getD 0 default

/-- Witness for C8 at the scenario's top-ranked segment row. -/
theorem claim_C8_metric_formulas_witness :
    exSegRow0.fatal_severe = pfAdd (statCell exSegRow0.srec "severity_fatal_count")
      (statCell exSegRow0.srec "severity_severe_count") ∧
    exSegRow0.fs_per_km = pfDiv exSegRow0.fatal_severe exSegRow0.total_km :=
  (claim_C8_metric_formulas
    (show processData (some exMeta) exRows exRefs = .ok exOut exFiles by with_unfolding_all decide)).1
    exSegRow0 (by with_unfolding_all decide)

/-- Witness for C6 at the scenario. -/
theorem claim_C6_filter_subtables_witness :
    exOut.seg1.cols = exOut.seg.cols ∧
    exOut.seg1.rows = exOut.seg.rows.filter segKmPred ∧
    exOut.seg1.rows <+ exOut.seg.rows ∧
    exOut.roads1.cols = exOut.roads.cols ∧
    exOut.roads1.rows = exOut.roads.rows.filter roadKmPred ∧
    exOut.roads1.rows <+ exOut.roads.rows :=
  claim_C6_filter_subtables
    (show processData (some exMeta) exRows exRefs = .ok exOut exFiles by with_unfolding_all decide)

/-- Witness for C5 at the scenario's zero-length segment. -/
theorem claim_C5_zero_total_km_witness :
    isFinitePF ((computeMetrics exJ3).fs_per_km) = false ∧
    isFinitePF ((computeMetrics exJ3).f_per_km) = false ∧
    computeMetrics exJ3 ∈ exOut.seg.rows ∧
    computeMetrics exJ3 ∉ exOut.seg1.rows :=
  claim_C5_zero_total_km
    (show processData (some exMeta) exRows exRefs = .ok exOut exFiles by with_unfolding_all decide)
    (show extractAll exRows = .ok exRecs by rfl)
    (show exJ3 ∈ joinRecs exRecs exRefs by with_unfolding_all decide)
    (show (computeMetrics exJ3).total_km = 0 by with_unfolding_all decide)

/-- A missing named widget makes the extractor raise (the `[...][0]`
indexing of an empty comprehension). -/
theorem extractRecord_error_of_missing {r : StatRow}
    (h : (r.data.widgets.filter (fun w => decide (w.name = accWidgetName))) = [] ∨
         (r.data.widgets.filter (fun w => decide (w.name = injWidgetName))) = []) :
    ∃ e, extractRecord r = .error e := by
  rcases hm : r.data.meta with - | m
  · exact ⟨"KeyError: meta", by simp [extractRecord, hm]⟩
  · rcases h with h | h
    · exact ⟨"IndexError: no accident_count_by_severity widget",
        by simp [extractRecord, hm, h]⟩
    · cases hacc : (r.data.widgets.filter (fun w => decide (w.name = accWidgetName))).head? with
      | none => exact ⟨"IndexError: no accident_count_by_severity widget",
          by simp [extractRecord, hm, hacc]⟩
      | some wa => exact ⟨"IndexError: no injured_count_by_severity widget",
          by simp [extractRecord, hm, hacc, h]⟩

/-- A failing row anywhere in the input fails the whole extraction loop. -/
theorem extractAll_error_of_mem {rs : List StatRow} {r : StatRow} (hr : r ∈ rs)
    {e : String} (he : extractRecord r = .error e) :
    ∃ e2, extractAll rs = .error e2 := by
  induction rs with
  | nil => exact absurd hr (List.not_mem_nil r)
  | cons x rs ih =>
    rcases List.mem_cons.1 hr with rfl | hr'
    · exact ⟨e, by simp [extractAll, he]⟩
    · cases hx : extractRecord x with
      | error e3 => exact ⟨e3, by simp [extractAll, hx]⟩
      | ok g =>
        rcases ih hr' with ⟨e2, he2⟩
        exact ⟨e2, by simp [extractAll, hx, he2]⟩

/-- An extraction failure aborts the run before any report is written. -/
theorem processData_err_of_extract_error (metadata : Option MetaBlock)
    (statRows : List StatRow) (refs : List RefSeg)
    (he : ∃ e, extractAll statRows = .error e) :
    isErr (processData metadata statRows refs) = true ∧
    filesOf (processData metadata statRows refs) = [] := by
  rcases he with ⟨e, he⟩
  unfold processData
  repeat' split
  all_goals simp_all [isErr, filesOf]

/-- C1 (amended): a RawRow in which a named widget is absent makes the
Record Extractor fail, and the failure aborts the whole run with no output
file written; a RawRow in which a named widget appears more than once is
NOT an error: the extractor silently uses the first occurrence in list
order (`[...][0]`). -/
theorem claim_C1_widget_extraction (r : StatRow) :
    ((r.data.widgets.filter (fun w => decide (w.name = accWidgetName))) = [] ∨
     (r.data.widgets.filter (fun w => decide (w.name = injWidgetName))) = [] →
      (∃ e, extractRecord r = .error e) ∧
      ∀ metadata statRows refs, r ∈ statRows →
        isErr (processData metadata statRows refs) = true ∧
        filesOf (processData metadata statRows refs) = []) ∧
    (∀ m wa wi, r.data.meta = some m →
      (r.data.widgets.filter (fun w => decide (w.name = accWidgetName))).head? = some wa →
      (r.data.widgets.filter (fun w => decide (w.name = injWidgetName))).head? = some wi →
      extractRecord r = .ok ⟨m.location_info.road_segment_id,
        m.location_info.road_segment_name, wa.items ++ wi.items⟩) := by
  constructor
  · intro h
    rcases extractRecord_error_of_missing h with ⟨e, he⟩
    refine ⟨⟨e, he⟩, ?_⟩
    intro metadata statRows refs hmem
    exact processData_err_of_extract_error metadata statRows refs
      (extractAll_error_of_mem hmem he)
  · intro m wa wi hm hacc hinj
    simp [extractRecord, hm, hacc, hinj]

/-- A statistics row carrying the `accident_count_by_severity` widget
twice (with different counts), plus the mandatory injured widget. -/
def c1DupRow : StatRow :=
  ⟨⟨some ⟨⟨5, "dup"⟩, some exDC⟩,
    [⟨"accident_count_by_severity",
       [("severity_fatal_count", 1), ("severity_severe_count", 2)]⟩,
     ⟨"accident_count_by_severity",
       [("severity_fatal_count", 7), ("severity_severe_count", 8)]⟩,
     ⟨"injured_count_by_severity", [("killed_count", 3)]⟩]⟩⟩

/-- C1 counterexample: on a row whose `accident_count_by_severity` widget
appears twice, the extractor does not fail — it silently emits a record
built from the first duplicate, and the whole run still succeeds. -/
theorem claim_C1_counterexample :
    (c1DupRow.data.widgets.filter (fun w => decide (w.name = accWidgetName))).length = 2 ∧
    extractRecord c1DupRow = .ok ⟨5, "dup",
      [("severity_fatal_count", 1), ("severity_severe_count", 2), ("killed_count", 3)]⟩ ∧
    isErr (processData (some exMeta) [c1DupRow] [⟨5, 300, 0, "A", 1, "B"⟩]) = false :=
  ⟨by decide, rfl, by decide⟩

/-- A row lacking the accident widget entirely. -/
def c1NoAccRow : StatRow :=
  ⟨⟨some ⟨⟨6, "noacc"⟩, some exDC⟩,
    [⟨"injured_count_by_severity", [("killed_count", 3)]⟩]⟩⟩

/-- Witness for C1 (amended) at two concrete rows. -/
theorem claim_C1_widget_extraction_witness :
    (∃ e, extractRecord c1NoAccRow = .error e) ∧
    extractRecord (mkStatRow 1 "seg1" 1 1 1) = .ok ⟨1, "seg1",
      [("severity_fatal_count", 1), ("severity_severe_count", 1), ("killed_count", 1)]⟩ :=
  ⟨((claim_C1_widget_extraction c1NoAccRow).1 (Or.inl (by decide))).1,
   (claim_C1_widget_extraction (mkStatRow 1 "seg1" 1 1 1)).2 _ _ _ rfl rfl rfl⟩

/-- A statistics row whose decoded `data` field has no `meta` key. -/
def c4Row : StatRow :=
  ⟨⟨none,
    [⟨"accident_count_by_severity",
       [("severity_fatal_count", 1), ("severity_severe_count", 1)]⟩,
     ⟨"injured_count_by_severity", [("killed_count", 0)]⟩]⟩⟩

/-- C4 (amended): when the first statistics RawRow's decoded `data` lacks
a `meta` sub-object, the download step itself does succeed — but it
returns `None` (not an empty Metadata), and the subsequent
`process_data` run then fails immediately (`metadata.get` on `None` is an
AttributeError caught by the blanket handler) with no output file
written. -/
theorem claim_C4_absent_meta (statRows : List StatRow) (r0 : StatRow)
    (rest : List StatRow) (h : statRows = r0 :: rest)
    (hm : r0.data.meta = none) :
    downloadInfographicsMeta statRows = .ok none ∧
    ∀ refs, processData none statRows refs =
      .err "AttributeError: NoneType object has no attribute get" [] := by
  subst h
  refine ⟨?_, fun refs => rfl⟩
  simp [downloadInfographicsMeta, hm]

/-- C4 counterexample: a concrete meta-less first row — the fetch
succeeds with `None`, yet the run aborts with an error and zero files,
contradicting "proceeds without failure". -/
theorem claim_C4_counterexample :
    downloadInfographicsMeta [c4Row] = .ok none ∧
    isErr (processData none [c4Row] exRefs) = true ∧
    filesOf (processData none [c4Row] exRefs) = [] :=
  ⟨rfl, rfl, rfl⟩

/-- Witness for C4 (amended) at the concrete meta-less row. -/
theorem claim_C4_absent_meta_witness :
    downloadInfographicsMeta [c4Row] = .ok none ∧
    processData none [c4Row] exRefs =
      .err "AttributeError: NoneType object has no attribute get" [] :=
  ⟨(claim_C4_absent_meta [c4Row] c4Row [] rfl rfl).1,
   (claim_C4_absent_meta [c4Row] c4Row [] rfl rfl).2 exRefs⟩

/-- A statistics row whose accident widget carries an item keyed `road`:
the merge suffixes the record's `road` column to `road_x`, so the
column selection at line 144 raises `KeyError: road` — but only *after*
the two segment-level CSVs were already written at lines 154 and 157. -/
def c3Row : StatRow :=
  ⟨⟨some ⟨⟨1, "segR"⟩, some exDC⟩,
    [⟨"accident_count_by_severity",
       [("severity_fatal_count", 1), ("severity_severe_count", 1), ("road", 9)]⟩,
     ⟨"injured_count_by_severity", [("killed_count", 0)]⟩]⟩⟩

/-- C3 counterexample: a run that fails at the road-level column
selection *after* writing the two segment files — a partial-success mode
the claim rules out. -/
theorem claim_C3_counterexample :
    isErr (processData (some exMeta) [c3Row] exRefs) = true ∧
    filesOf (processData (some exMeta) [c3Row] exRefs) = [segFile, seg1File] := by
  refine ⟨by decide, by decide⟩

/-- Inversion for a failed run: the files already written when the
failure struck are either none or exactly the two segment-level files. -/
theorem processData_err_files {metadata : Option MetaBlock}
    {statRows : List StatRow} {refs : List RefSeg} {e : String}
    {fs : List String}
    (h : processData metadata statRows refs = .err e fs) :
    fs = [] ∨ fs = [segFile, seg1File] := by
  unfold processData at h
  repeat' split at h
  all_goals cases h
  all_goals first | exact Or.inl rfl | exact Or.inr rfl

/-- C3 (amended): the four `to_csv` calls are sequential with no
transaction, so what holds is only that the written files form a prefix
of the fixed order (segments, segments≥1km, roads, roads≥1km) — a fatal
error can strike between writes, leaving two files — and that a
successful run writes all four. -/
theorem claim_C3_files_ordered (metadata : Option MetaBlock)
    (statRows : List StatRow) (refs : List RefSeg) :
    (∃ k, filesOf (processData metadata statRows refs) =
      [segFile, seg1File, roadsFile, roads1File].take k) ∧
    (isErr (processData metadata statRows refs) = false →
      filesOf (processData metadata statRows refs) =
        [segFile, seg1File, roadsFile, roads1File]) := by
  rcases h : processData metadata statRows refs with ⟨out, fs⟩ | ⟨e, fs⟩
  · rcases processData_ok_inv h with ⟨recs, -, -, hfs, -, -, -, -⟩
    subst hfs
    exact ⟨⟨4, rfl⟩, fun _ => rfl⟩
  · rcases processData_err_files h with rfl | rfl
    · exact ⟨⟨0, rfl⟩, fun hc => nomatch hc⟩
    · exact ⟨⟨2, rfl⟩, fun hc => nomatch hc⟩

/-- Witness for C3 (amended): on the concrete good scenario the
no-error implication yields all four files. -/
theorem claim_C3_files_ordered_witness :
    filesOf (processData (some exMeta) exRows exRefs) =
      [segFile, seg1File, roadsFile, roads1File] :=
  (claim_C3_files_ordered (some exMeta) exRows exRefs).2 (by decide)

/-- Membership survives the column-appending folds of lines 135-138 and
176-178. -/
theorem mem_foldl_addColIfAbsent {c : String} (l : List String)
    (cols : List String) (h : c ∈ cols) : c ∈ l.foldl addColIfAbsent cols := by
  induction l generalizing cols with
  | nil => exact h
  | cons x xs ih =>
    refine ih _ ?_
    unfold addColIfAbsent
    split
    · exact h
    · exact List.mem_append_left _ h

/-- When the statistics frame has no column named `segment_id`, the right
join key survives the merge unsuffixed. -/
theorem segment_id_mem_mergedCols {lc : List String} (h : "segment_id" ∉ lc) :
    "segment_id" ∈ mergedCols lc := by
  unfold mergedCols
  refine List.mem_append_right _ ?_
  refine List.mem_map.2 ⟨"segment_id", by decide, ?_⟩
  rw [if_neg h]

/-- A left column not clashing with the reference columns survives the
merge unsuffixed. -/
theorem mem_mergedCols_left {c : String} {lc : List String} (hc : c ∈ lc)
    (hr : c ∉ refColsList) : c ∈ mergedCols lc := by
  unfold mergedCols
  refine List.mem_append_left _ ?_
  refine List.mem_map.2 ⟨c, hc, ?_⟩
  rw [if_neg hr]

/-- Every extracted record dict carries the `road_segment_id` key. -/
theorem road_segment_id_mem_statCols {recs : List SegRec} (h : recs ≠ []) :
    "road_segment_id" ∈ statCols recs := by
  rcases recs with - | ⟨g, rest⟩
  · exact absurd rfl h
  · unfold statCols
    rw [mem_dedupFirst]
    refine List.mem_join.2 ⟨keysOfRec g, ?_, ?_⟩
    · exact List.mem_map.2 ⟨g, List.mem_cons_self g rest, rfl⟩
    · unfold keysOfRec
      rw [mem_dedupFirst]
      exact List.mem_cons_self _ _

/-- A selected column present in the merged frame is in the line-150
output selection. -/
theorem mem_outColsOf {c : String} {recs : List SegRec}
    (hs : c ∈ segmentColumnsList) (hd : c ∈ mergedColsOf recs) :
    c ∈ outColsOf recs := by
  unfold outColsOf
  rw [List.mem_filter]
  exact ⟨hs, decide_eq_true (mem_foldl_addColIfAbsent computedColsList _ hd)⟩

/-- In every row of the sorted segment frame the two join-key cells
agree. -/
theorem segStage_key_eq {recs : List SegRec} {refs : List RefSeg} {r : MRow}
    (hr : r ∈ segStage recs refs) : jkey r.srec = r.ref.segment_id := by
  have hperm := segStage_perm recs refs
  have hr2 : r ∈ (joinRecs recs refs).map computeMetrics := hperm.mem_iff.1 hr
  rcases List.mem_map.1 hr2 with ⟨j, hj, rfl⟩
  exact ((mem_joinRecs.1 hj).2.2).symm

/-- No string gains a given nonempty suffix and ends up equal to a target
whose last character differs from the suffix end. -/
theorem suffixed_ne (c sfx tgt : String) (hs : sfx.data ≠ [])
    (hne : sfx.data.getLast? ≠ tgt.data.getLast?) : c ++ sfx ≠ tgt := by
  intro h
  apply hne
  have h1 : (c ++ sfx).data = tgt.data := congrArg String.data h
  rw [String.data_append] at h1
  rw [← h1, List.getLast?_append_of_ne_nil _ hs]

/-- When the statistics frame itself has a `segment_id` column, the merge
suffixes both copies and no plain `segment_id` survives. -/
theorem segment_id_not_mem_mergedCols {lc : List String}
    (h : "segment_id" ∈ lc) : "segment_id" ∉ mergedCols lc := by
  unfold mergedCols
  intro hmem
  rcases List.mem_append.1 hmem with h1 | h1
  · rcases List.mem_map.1 h1 with ⟨c, hc, heq⟩
    by_cases hcr : c ∈ refColsList
    · rw [if_pos hcr] at heq
      exact suffixed_ne c "_x" "segment_id" (by decide) (by decide) heq
    · rw [if_neg hcr] at heq
      subst heq
      exact hcr (by decide)
  · rcases List.mem_map.1 h1 with ⟨c, hc, heq⟩
    by_cases hcl : c ∈ lc
    · rw [if_pos hcl] at heq
      exact suffixed_ne c "_y" "segment_id" (by decide) (by decide) heq
    · rw [if_neg hcl] at heq
      subst heq
      exact hcl h

/-- A column of the folded frame came from the base frame or from the
assigned list. -/
theorem mem_of_mem_foldl_addColIfAbsent {c : String} (l : List String)
    (cols : List String) (h : c ∈ l.foldl addColIfAbsent cols) :
    c ∈ cols ∨ c ∈ l := by
  induction l generalizing cols with
  | nil => exact Or.inl h
  | cons x xs ih =>
    rcases ih _ h with h2 | h2
    · unfold addColIfAbsent at h2
      split at h2
      · exact Or.inl h2
      · rcases List.mem_append.1 h2 with h3 | h3
        · exact Or.inl h3
        · rcases List.mem_cons.1 h3 with rfl | h4
          · exact Or.inr (List.mem_cons_self _ _)
          · exact absurd h4 (List.not_mem_nil c)
    · exact Or.inr (List.mem_cons_of_mem _ h2)

/-- Under a `segment_id` clash the line-150 selection cannot keep a
`segment_id` column: it is not in the merged frame and it is not one of
the four assigned metric columns. -/
theorem segment_id_not_mem_outCols {recs : List SegRec}
    (h : "segment_id" ∈ statCols recs) : "segment_id" ∉ outColsOf recs := by
  intro hmem
  unfold outColsOf at hmem
  have h2 : "segment_id" ∈ dfColsOf recs :=
    of_decide_eq_true (List.mem_filter.1 hmem).2
  rcases mem_of_mem_foldl_addColIfAbsent computedColsList _ h2 with h3 | h3
  · exact segment_id_not_mem_mergedCols h h3
  · exact absurd h3 (by decide)

/-- The segment-table columns of a run\'s output (empty for a failed
run). -/
def runSegCols : PRun → List String
  | .ok out _ => out.seg.cols
  | .err _ _ => []

set_option maxHeartbeats 1000000 in
/-- C10 (amended): on a successful run the `road_segment_id` column is
always kept, and every row's `road_segment_id` cell equals its
`segment_id` cell (the join condition); the `segment_id` column is
present if and only if the statistics frame had no column of that name —
a widget item keyed `segment_id` makes the merge suffix both copies away
and the selection then drops them, so the claim's unconditional "both
present" is too strong. -/
theorem claim_C10_join_key_columns {metadata : Option MetaBlock}
    {statRows : List StatRow} {refs : List RefSeg} {out : POut}
    {files : List String} {recs : List SegRec}
    (h : processData metadata statRows refs = .ok out files)
    (hrecs : extractAll statRows = .ok recs) :
    "road_segment_id" ∈ out.seg.cols ∧ "road_segment_id" ∈ out.seg1.cols ∧
    ("segment_id" ∈ out.seg.cols ↔ "segment_id" ∉ statCols recs) ∧
    ("segment_id" ∈ out.seg1.cols ↔ "segment_id" ∉ statCols recs) ∧
    (∀ r ∈ out.seg.rows, jkey r.srec = r.ref.segment_id) ∧
    (∀ r ∈ out.seg1.rows, jkey r.srec = r.ref.segment_id) := by
  rcases processData_ok_inv h with ⟨recs2, hrecs2, rfl, -, -, -, -, hne⟩
  have hre : recs2 = recs := Except.ok.inj (hrecs2.symm.trans hrecs)
  subst hre
  have hm1 : "road_segment_id" ∈ outColsOf recs2 :=
    mem_outColsOf (by decide)
      (mem_mergedCols_left (road_segment_id_mem_statCols hne) (by decide))
  have hiff : "segment_id" ∈ outColsOf recs2 ↔ "segment_id" ∉ statCols recs2 := by
    constructor
    · intro hm hst
      exact segment_id_not_mem_outCols hst hm
    · intro hnc
      exact mem_outColsOf (by decide) (segment_id_mem_mergedCols hnc)
  refine ⟨hm1, hm1, hiff, hiff, ?_, ?_⟩
  · intro r hr
    exact segStage_key_eq hr
  · intro r hr
    rw [seg1Stage_eq] at hr
    exact segStage_key_eq (List.mem_filter.1 hr).1

/-- A statistics row whose accident widget carries an item keyed
`segment_id`, clashing with the reference join key. -/
def c10Row : StatRow :=
  ⟨⟨some ⟨⟨1, "segS"⟩, some exDC⟩,
    [⟨"accident_count_by_severity",
       [("severity_fatal_count", 1), ("severity_severe_count", 1),
        ("segment_id", 77)]⟩,
     ⟨"injured_count_by_severity", [("killed_count", 0)]⟩]⟩⟩

set_option maxHeartbeats 1600000 in
/-- C10 counterexample: with a clashing `segment_id` widget item the run
still succeeds, `road_segment_id` is in the segment output, but the
`segment_id` column is gone (suffixed to `segment_id_x`/`segment_id_y`
by the merge and then dropped by the selection). -/
theorem claim_C10_counterexample :
    isErr (processData (some exMeta) [c10Row] exRefs) = false ∧
    "road_segment_id" ∈ runSegCols (processData (some exMeta) [c10Row] exRefs) ∧
    "segment_id" ∉ runSegCols (processData (some exMeta) [c10Row] exRefs) := by
  refine ⟨by decide, by with_unfolding_all decide, by with_unfolding_all decide⟩

set_option maxHeartbeats 1600000 in
/-- Witness for C10 (amended) on the clash-free concrete scenario. -/
theorem claim_C10_join_key_columns_witness :
    "road_segment_id" ∈ exOut.seg.cols ∧ "road_segment_id" ∈ exOut.seg1.cols ∧
    "segment_id" ∈ exOut.seg.cols ∧
    ∀ r ∈ exOut.seg.rows, jkey r.srec = r.ref.segment_id := by
  have hc := claim_C10_join_key_columns
    (show processData (some exMeta) exRows exRefs = .ok exOut exFiles by
      with_unfolding_all decide)
    (show extractAll exRows = .ok exRecs by rfl)
  exact ⟨hc.1, hc.2.1, hc.2.2.1.2 (by decide), hc.2.2.2.2.1⟩

/-! Claim C2: the tie-stability of the two `sort_values` calls.  The
17-row frame below (one row past the 16-element insertion-sort cutoff of
numpy) has all sort keys equal; the quicksort partition pass scrambles
it.  The intermediate states of the Hoare exchange loop are pinned down
by explicit anchor lemmas so that each step is checked on a concrete
array. -/

/-- A minimal metric row with the given join key and a
`fatal_severe_accidents_per_km` of 1 (2 fatal+severe accidents on a 2 km
segment). -/
def mkM (k : ℚ) : MRow :=
  ⟨⟨k, "", []⟩, ⟨0, 0, 0, "", 0, ""⟩, 2, PFloat.fin 2, PFloat.fin 1, PFloat.fin 1⟩

/-- The sort key of lines 141 and 180 on metric rows. -/
def c2key : MRow → PFloat := fun r => r.fs_per_km

/-- Seventeen metric rows with all-equal sort keys, in join-key order. -/
def c2M17 : List MRow :=
  [mkM 1, mkM 2, mkM 3, mkM 4, mkM 5, mkM 6, mkM 7, mkM 8, mkM 9, mkM 10, mkM 11, mkM 12, mkM 13, mkM 14, mkM 15, mkM 16, mkM 17]

/-- `c2M17` reversed: the list handed to the ascending argsort by the
double-reversal of the descending sort. -/
def c2R17 : List MRow :=
  [mkM 17, mkM 16, mkM 15, mkM 14, mkM 13, mkM 12, mkM 11, mkM 10, mkM 9, mkM 8, mkM 7, mkM 6, mkM 5, mkM 4, mkM 3, mkM 2, mkM 1]

/-- The partition array after the pivot is parked at position 15. -/
def c2A0 : Array MRow :=
  ⟨[mkM 17, mkM 16, mkM 15, mkM 14, mkM 13, mkM 12, mkM 11, mkM 10, mkM 2, mkM 8, mkM 7, mkM 6, mkM 5, mkM 4, mkM 3, mkM 9, mkM 1]⟩

/-- The partition array after exchange 1 of the Hoare loop. -/
def c2A1 : Array MRow :=
  ⟨[mkM 17, mkM 3, mkM 15, mkM 14, mkM 13, mkM 12, mkM 11, mkM 10, mkM 2, mkM 8, mkM 7, mkM 6, mkM 5, mkM 4, mkM 16, mkM 9, mkM 1]⟩

/-- The partition array after exchange 2 of the Hoare loop. -/
def c2A2 : Array MRow :=
  ⟨[mkM 17, mkM 3, mkM 4, mkM 14, mkM 13, mkM 12, mkM 11, mkM 10, mkM 2, mkM 8, mkM 7, mkM 6, mkM 5, mkM 15, mkM 16, mkM 9, mkM 1]⟩

/-- The partition array after exchange 3 of the Hoare loop. -/
def c2A3 : Array MRow :=
  ⟨[mkM 17, mkM 3, mkM 4, mkM 5, mkM 13, mkM 12, mkM 11, mkM 10, mkM 2, mkM 8, mkM 7, mkM 6, mkM 14, mkM 15, mkM 16, mkM 9, mkM 1]⟩

/-- The partition array after exchange 4 of the Hoare loop. -/
def c2A4 : Array MRow :=
  ⟨[mkM 17, mkM 3, mkM 4, mkM 5, mkM 6, mkM 12, mkM 11, mkM 10, mkM 2, mkM 8, mkM 7, mkM 13, mkM 14, mkM 15, mkM 16, mkM 9, mkM 1]⟩

/-- The partition array after exchange 5 of the Hoare loop. -/
def c2A5 : Array MRow :=
  ⟨[mkM 17, mkM 3, mkM 4, mkM 5, mkM 6, mkM 7, mkM 11, mkM 10, mkM 2, mkM 8, mkM 12, mkM 13, mkM 14, mkM 15, mkM 16, mkM 9, mkM 1]⟩

/-- The partition array after exchange 6 of the Hoare loop. -/
def c2A6 : Array MRow :=
  ⟨[mkM 17, mkM 3, mkM 4, mkM 5, mkM 6, mkM 7, mkM 8, mkM 10, mkM 2, mkM 11, mkM 12, mkM 13, mkM 14, mkM 15, mkM 16, mkM 9, mkM 1]⟩

/-- The partition array after exchange 7 of the Hoare loop. -/
def c2A7 : Array MRow :=
  ⟨[mkM 17, mkM 3, mkM 4, mkM 5, mkM 6, mkM 7, mkM 8, mkM 2, mkM 10, mkM 11, mkM 12, mkM 13, mkM 14, mkM 15, mkM 16, mkM 9, mkM 1]⟩

/-- The left range the partition step returns. -/
def c2Left : List MRow :=
  [mkM 17, mkM 3, mkM 4, mkM 5, mkM 6, mkM 7, mkM 8, mkM 2]

/-- The right range the partition step returns. -/
def c2Right : List MRow :=
  [mkM 11, mkM 12, mkM 13, mkM 14, mkM 15, mkM 16, mkM 10, mkM 1]

/-- The output of the introsort pass on `c2R17`. -/
def c2Raw : List MRow :=
  [mkM 17, mkM 3, mkM 4, mkM 5, mkM 6, mkM 7, mkM 8, mkM 2, mkM 9, mkM 11, mkM 12, mkM 13, mkM 14, mkM 15, mkM 16, mkM 10, mkM 1]

/-- One non-terminal iteration of the Hoare exchange loop, as an equation
between successive loop states. -/
theorem partLoop_step [Inhabited α] (key : α → PFloat) (vp : PFloat) (fuel : Nat)
    (a a2 : Array α) (i j i2 j2 : Nat)
    (h1 : scanUp key a vp a.size (i + 1) = i2)
    (h2 : scanDown key a vp (j - 1) = j2)
    (hlt : ¬ j2 ≤ i2) (ha : a.swap! i2 j2 = a2) :
    partLoop key vp (fuel + 1) a i j = partLoop key vp fuel a2 i2 j2 := by
  subst h1 h2 ha
  show (if scanDown key a vp (j - 1) ≤ scanUp key a vp a.size (i + 1) then
      (a, scanUp key a vp a.size (i + 1))
    else partLoop key vp fuel
      (a.swap! (scanUp key a vp a.size (i + 1)) (scanDown key a vp (j - 1)))
      (scanUp key a vp a.size (i + 1)) (scanDown key a vp (j - 1))) =
    partLoop key vp fuel
      (a.swap! (scanUp key a vp a.size (i + 1)) (scanDown key a vp (j - 1)))
      (scanUp key a vp a.size (i + 1)) (scanDown key a vp (j - 1))
  exact if_neg hlt

/-- The terminal iteration of the Hoare exchange loop: the scans have
crossed. -/
theorem partLoop_term [Inhabited α] (key : α → PFloat) (vp : PFloat) (fuel : Nat)
    (a : Array α) (i j i2 j2 : Nat)
    (h1 : scanUp key a vp a.size (i + 1) = i2)
    (h2 : scanDown key a vp (j - 1) = j2)
    (hle : j2 ≤ i2) :
    partLoop key vp (fuel + 1) a i j = (a, i2) := by
  subst h1 h2
  show (if scanDown key a vp (j - 1) ≤ scanUp key a vp a.size (i + 1) then
      (a, scanUp key a vp a.size (i + 1))
    else partLoop key vp fuel
      (a.swap! (scanUp key a vp a.size (i + 1)) (scanDown key a vp (j - 1)))
      (scanUp key a vp a.size (i + 1)) (scanDown key a vp (j - 1))) =
    (a, scanUp key a vp a.size (i + 1))
  exact if_pos hle

/-- The partition step through an anchored exchange-loop result. -/
theorem partitionStep_spec [Inhabited α] (key : α → PFloat) (l : List α)
    (r1 : Array α) (r2 : Nat) (hr : partRes key l = (r1, r2)) :
    partitionStep key l =
      ((r1.swap! r2 (l.length - 2)).toList.take r2,
       (r1.swap! r2 (l.length - 2)).toList.getD r2 default,
       (r1.swap! r2 (l.length - 2)).toList.drop (r2 + 1)) := by
  unfold partitionStep partResArr
  rw [hr]

/-- Exchange 1 of the Hoare loop on the C2 frame. -/
theorem c2loopStep1 :
    partLoop c2key (PFloat.fin 1) (16 + 1) c2A0 0 15 =
      partLoop c2key (PFloat.fin 1) 16 c2A1 1 14 :=
  partLoop_step c2key (PFloat.fin 1) 16 c2A0 c2A1 0 15 1 14
    (by with_unfolding_all decide) (by with_unfolding_all decide) (by decide)
    (by with_unfolding_all decide)

/-- Exchange 2 of the Hoare loop on the C2 frame. -/
theorem c2loopStep2 :
    partLoop c2key (PFloat.fin 1) (15 + 1) c2A1 1 14 =
      partLoop c2key (PFloat.fin 1) 15 c2A2 2 13 :=
  partLoop_step c2key (PFloat.fin 1) 15 c2A1 c2A2 1 14 2 13
    (by with_unfolding_all decide) (by with_unfolding_all decide) (by decide)
    (by with_unfolding_all decide)

/-- Exchange 3 of the Hoare loop on the C2 frame. -/
theorem c2loopStep3 :
    partLoop c2key (PFloat.fin 1) (14 + 1) c2A2 2 13 =
      partLoop c2key (PFloat.fin 1) 14 c2A3 3 12 :=
  partLoop_step c2key (PFloat.fin 1) 14 c2A2 c2A3 2 13 3 12
    (by with_unfolding_all decide) (by with_unfolding_all decide) (by decide)
    (by with_unfolding_all decide)

/-- Exchange 4 of the Hoare loop on the C2 frame. -/
theorem c2loopStep4 :
    partLoop c2key (PFloat.fin 1) (13 + 1) c2A3 3 12 =
      partLoop c2key (PFloat.fin 1) 13 c2A4 4 11 :=
  partLoop_step c2key (PFloat.fin 1) 13 c2A3 c2A4 3 12 4 11
    (by with_unfolding_all decide) (by with_unfolding_all decide) (by decide)
    (by with_unfolding_all decide)

/-- Exchange 5 of the Hoare loop on the C2 frame. -/
theorem c2loopStep5 :
    partLoop c2key (PFloat.fin 1) (12 + 1) c2A4 4 11 =
      partLoop c2key (PFloat.fin 1) 12 c2A5 5 10 :=
  partLoop_step c2key (PFloat.fin 1) 12 c2A4 c2A5 4 11 5 10
    (by with_unfolding_all decide) (by with_unfolding_all decide) (by decide)
    (by with_unfolding_all decide)

/-- Exchange 6 of the Hoare loop on the C2 frame. -/
theorem c2loopStep6 :
    partLoop c2key (PFloat.fin 1) (11 + 1) c2A5 5 10 =
      partLoop c2key (PFloat.fin 1) 11 c2A6 6 9 :=
  partLoop_step c2key (PFloat.fin 1) 11 c2A5 c2A6 5 10 6 9
    (by with_unfolding_all decide) (by with_unfolding_all decide) (by decide)
    (by with_unfolding_all decide)

/-- Exchange 7 of the Hoare loop on the C2 frame. -/
theorem c2loopStep7 :
    partLoop c2key (PFloat.fin 1) (10 + 1) c2A6 6 9 =
      partLoop c2key (PFloat.fin 1) 10 c2A7 7 8 :=
  partLoop_step c2key (PFloat.fin 1) 10 c2A6 c2A7 6 9 7 8
    (by with_unfolding_all decide) (by with_unfolding_all decide) (by decide)
    (by with_unfolding_all decide)

/-- The scans cross at the eighth iteration. -/
theorem c2loopTerm :
    partLoop c2key (PFloat.fin 1) (9 + 1) c2A7 7 8 = (c2A7, 8) :=
  partLoop_term c2key (PFloat.fin 1) 9 c2A7 7 8 8 7
    (by with_unfolding_all decide) (by with_unfolding_all decide) (by decide)

/-- The whole exchange loop on the C2 frame. -/
theorem c2loopChain :
    partLoop c2key (PFloat.fin 1) 17 c2A0 0 15 = (c2A7, 8) :=
  c2loopStep1.trans (c2loopStep2.trans (c2loopStep3.trans (c2loopStep4.trans
    (c2loopStep5.trans (c2loopStep6.trans (c2loopStep7.trans c2loopTerm))))))

/-- The anchored exchange-loop result on the C2 frame. -/
theorem c2partRes : partRes c2key c2R17 = (c2A7, 8) := by
  unfold partRes
  rw [show pivotV c2key c2R17 = PFloat.fin 1 from by with_unfolding_all decide]
  rw [show parkedArr c2key c2R17 = c2A0 from by with_unfolding_all decide]
  rw [show c2R17.length = 17 from by decide]
  rw [show (17 : Nat) - 2 = 15 from by decide]
  exact c2loopChain

/-- The partition pass on the C2 frame. -/
theorem c2part : partitionStep c2key c2R17 = (c2Left, mkM 9, c2Right) := by
  rw [partitionStep_spec c2key c2R17 c2A7 8 c2partRes]
  with_unfolding_all decide

/-- The introsort pass on the C2 frame: one partition, then insertion
sort of the two sub-ranges. -/
theorem c2rawEq :
    rawIntroSort c2key c2R17.length (2 * (Nat.log2 c2R17.length : Int)) c2R17 =
      c2Raw := by
  have h0 : rawIntroSort c2key c2R17.length (2 * (Nat.log2 c2R17.length : Int)) c2R17 =
      rawIntroSort c2key 16 (2 * (Nat.log2 c2R17.length : Int) - 1)
          (partitionStep c2key c2R17).1 ++
        (partitionStep c2key c2R17).2.1 ::
          rawIntroSort c2key 16 (2 * (Nat.log2 c2R17.length : Int) - 1)
            (partitionStep c2key c2R17).2.2 := rfl
  rw [h0, c2part]
  with_unfolding_all decide

/-- The numpy argsort on the C2 frame equals the raw introsort output
(the contract guard holds). -/
theorem c2sortEq : numpySortK c2key c2R17 = c2Raw := by
  unfold numpySortK
  rw [c2rawEq]
  rw [if_pos (And.intro (by with_unfolding_all decide) (by with_unfolding_all decide))]

/-- The full descending sort of line 141 on the C2 frame. -/
theorem c2final : sortValuesDesc c2key c2M17 = c2Raw.reverse := by
  have h0 : sortValuesDesc c2key c2M17 =
      (numpySortK c2key c2R17).reverse ++ ([] : List MRow) := rfl
  rw [h0, c2sortEq]
  with_unfolding_all decide

/-- C2 counterexample: a 17-row frame whose rows all have
`fatal_severe_accidents_per_km = 1`, listed in join-key order 1..17.
The descending sort of line 141 does not leave these ties in input
order: it emits the join keys in the scrambled order below (row 10
overtakes row 2, among others), because for ranges longer than 16 the
default `sort_values` quicksort partition pass reorders equal elements. -/
theorem claim_C2_counterexample :
    c2M17.map (fun r => r.srec.rsid) =
      [1, 2, 3, 4, 5, 6, 7, 8, 9, 10, 11, 12, 13, 14, 15, 16, 17] ∧
    (∀ r ∈ c2M17, r.fs_per_km = PFloat.fin 1) ∧
    (sortValuesDesc c2key c2M17).map (fun r => r.srec.rsid) =
      [1, 10, 16, 15, 14, 13, 12, 11, 9, 2, 8, 7, 6, 5, 4, 3, 17] := by
  refine ⟨by decide, by decide, ?_⟩
  rw [c2final]
  with_unfolding_all decide

/-- C2 (amended): tie stability holds only in the insertion-sort regime —
for frames of at most 16 rows (numpy switches its quicksort to a stable
insertion sort below the `SMALL_QUICKSORT` threshold), two rows with
equal `fatal_severe_accidents_per_km` keep their input order in both the
segment-level and the road-level descending sort. -/
theorem claim_C2_sort_stability (rows : List MRow) (rrows : List RoadRow)
    (h16 : rows.length ≤ 16) (hr16 : rrows.length ≤ 16)
    (i j i2 j2 : Nat) (hij : i < j) (hj : j < rows.length)
    (hij2 : i2 < j2) (hj2 : j2 < rrows.length)
    (hk : (rows.get ⟨i, Nat.lt_trans hij hj⟩).fs_per_km =
      (rows.get ⟨j, hj⟩).fs_per_km)
    (hk2 : (rrows.get ⟨i2, Nat.lt_trans hij2 hj2⟩).fs_per_km =
      (rrows.get ⟨j2, hj2⟩).fs_per_km) :
    [rows.get ⟨i, Nat.lt_trans hij hj⟩, rows.get ⟨j, hj⟩] <+
      sortValuesDesc (fun r => r.fs_per_km) rows ∧
    [rrows.get ⟨i2, Nat.lt_trans hij2 hj2⟩, rrows.get ⟨j2, hj2⟩] <+
      sortValuesDesc (fun r => r.fs_per_km) rrows :=
  ⟨sortValuesDesc_stable_small (fun r => r.fs_per_km) rows h16 i j hij hj hk,
   sortValuesDesc_stable_small (fun r => r.fs_per_km) rrows hr16 i2 j2 hij2 hj2 hk2⟩

/-- A minimal road row with `fatal_severe_accidents_per_km = 1`. -/
def mkR (k : ℚ) : RoadRow :=
  ⟨k, [], "", "", 2, PFloat.fin 1, PFloat.fin 1⟩

/-- Two-row tie frames for the stability witness. -/
def c2wM : List MRow := [mkM 1, mkM 2]

def c2wR : List RoadRow := [mkR 1, mkR 2]

/-- Witness for C2 (amended) on concrete two-row tie frames. -/
theorem claim_C2_sort_stability_witness :
    [c2wM.get ⟨0, by decide⟩, c2wM.get ⟨1, by decide⟩] <+
      sortValuesDesc (fun r : MRow => r.fs_per_km) c2wM ∧
    [c2wR.get ⟨0, by decide⟩, c2wR.get ⟨1, by decide⟩] <+
      sortValuesDesc (fun r : RoadRow => r.fs_per_km) c2wR :=
  claim_C2_sort_stability c2wM c2wR (by decide) (by decide) 0 1 0 1
    (by decide) (by decide) (by decide) (by decide) (by decide) (by decide)

/-- The road value of a built road row is its group key. -/
theorem buildRoadRow_road (aggCols : List String) (rows : List MRow) (q : ℚ) :
    (buildRoadRow aggCols rows q).road = q := rfl

/-- The summed columns of a built road row (line 168): one pair per
aggregation column, each the plain sum of that column over exactly the
rows of the group. -/
theorem buildRoadRow_sums (aggCols : List String) (rows : List MRow) (q : ℚ) :
    (buildRoadRow aggCols rows q).sums =
      aggCols.map (fun c =>
        (c, ((roadGroup rows q).map (fun r => aggCellQ r c)).sum)) := rfl

/-- The `from_name` cell of a built road row (lines 170, 173). -/
theorem buildRoadRow_from_name (aggCols : List String) (rows : List MRow) (q : ℚ) :
    (buildRoadRow aggCols rows q).from_name =
      (((roadGroup (sortValuesAsc (fun r => PFloat.fin r.ref.from_km) rows) q).head?).map
        (fun r => r.ref.from_name)).getD "" := rfl

/-- The `to_name` cell of a built road row (lines 171, 174). -/
theorem buildRoadRow_to_name (aggCols : List String) (rows : List MRow) (q : ℚ) :
    (buildRoadRow aggCols rows q).to_name =
      (((roadGroup (sortValuesAsc (fun r => PFloat.fin r.ref.to_km) rows) q).getLast?).map
        (fun r => r.ref.to_name)).getD "" := rfl

/-- The group-key list holds exactly the road values of the frame. -/
theorem mem_roadKeys {rows : List MRow} {q : ℚ} :
    q ∈ roadKeys rows ↔ ∃ r ∈ rows, r.ref.road = q := by
  unfold roadKeys
  rw [(npyInsertionSort_perm _ _).mem_iff, mem_dedupFirst, List.mem_map]

/-- The group-key list is duplicate-free. -/
theorem roadKeys_nodup (rows : List MRow) : (roadKeys rows).Nodup :=
  ((npyInsertionSort_perm _ _).nodup_iff).2 (dedupFirst_nodup _)

/-- A column of the assigned list ends up present after the fold of
column assignments. -/
theorem mem_foldl_addColIfAbsent_self {c : String} (l : List String)
    (cols : List String) (h : c ∈ l) : c ∈ l.foldl addColIfAbsent cols := by
  induction l generalizing cols with
  | nil => exact absurd h (List.not_mem_nil c)
  | cons x xs ih =>
    rcases List.mem_cons.1 h with rfl | h2
    · refine mem_foldl_addColIfAbsent xs _ ?_
      unfold addColIfAbsent
      split
      · assumption
      · exact List.mem_append_right _ (List.mem_cons_self _ _)
    · exact ih _ h2

/-- numpy comparison on finite keys, read back as a rational bound. -/
theorem le_of_pfLt_fin_eq_false {a b : ℚ}
    (h : pfLt (PFloat.fin a) (PFloat.fin b) = false) : b ≤ a := by
  have h2 : ¬ a < b := by simpa [pfLt] using h
  exact le_of_not_lt h2

/-- The head of a group of the frame sorted ascending by `from_km` (the
`.first()` of line 170) is a group row of minimal `from_km`. -/
theorem sorted_group_head_from (rows : List MRow) (q : ℚ) {r0 : MRow}
    (h0 : r0 ∈ roadGroup rows q) :
    ∃ x, (roadGroup (sortValuesAsc (fun r => PFloat.fin r.ref.from_km) rows) q).head? =
        some x ∧
      x ∈ roadGroup rows q ∧
      ∀ r2 ∈ roadGroup rows q, x.ref.from_km ≤ r2.ref.from_km := by
  have hperm : roadGroup (sortValuesAsc (fun r => PFloat.fin r.ref.from_km) rows) q ~
      roadGroup rows q := by
    unfold roadGroup
    exact (sortValuesAsc_perm (fun r : MRow => PFloat.fin r.ref.from_km) rows).filter _
  have hsorted : KeySorted (fun r => PFloat.fin r.ref.from_km)
      (roadGroup (sortValuesAsc (fun r => PFloat.fin r.ref.from_km) rows) q) := by
    have hs := sortValuesAsc_sorted (fun r : MRow => PFloat.fin r.ref.from_km) rows
      (fun r _ => rfl)
    exact List.Pairwise.sublist (List.filter_sublist _) hs
  have hne : roadGroup (sortValuesAsc (fun r => PFloat.fin r.ref.from_km) rows) q ≠ [] :=
    List.ne_nil_of_mem (hperm.mem_iff.2 h0)
  rcases List.exists_cons_of_ne_nil hne with ⟨x, t, hxt⟩
  rw [hxt] at hperm hsorted
  refine ⟨x, ?_, hperm.mem_iff.1 (List.mem_cons_self x t), ?_⟩
  · rw [hxt]
    rfl
  intro r2 hr2
  exact le_of_pfLt_fin_eq_false
    (keySorted_head_min hsorted r2 (hperm.mem_iff.2 hr2))

/-- The last row of a group of the frame sorted ascending by `to_km` (the
`.last()` of line 171) is a group row of maximal `to_km`. -/
theorem sorted_group_last_to (rows : List MRow) (q : ℚ) {r0 : MRow}
    (h0 : r0 ∈ roadGroup rows q) :
    ∃ x, (roadGroup (sortValuesAsc (fun r => PFloat.fin r.ref.to_km) rows) q).getLast? =
        some x ∧
      x ∈ roadGroup rows q ∧
      ∀ r2 ∈ roadGroup rows q, r2.ref.to_km ≤ x.ref.to_km := by
  have hperm : roadGroup (sortValuesAsc (fun r => PFloat.fin r.ref.to_km) rows) q ~
      roadGroup rows q := by
    unfold roadGroup
    exact (sortValuesAsc_perm (fun r : MRow => PFloat.fin r.ref.to_km) rows).filter _
  have hsorted : KeySorted (fun r => PFloat.fin r.ref.to_km)
      (roadGroup (sortValuesAsc (fun r => PFloat.fin r.ref.to_km) rows) q) := by
    have hs := sortValuesAsc_sorted (fun r : MRow => PFloat.fin r.ref.to_km) rows
      (fun r _ => rfl)
    exact List.Pairwise.sublist (List.filter_sublist _) hs
  have hne : roadGroup (sortValuesAsc (fun r => PFloat.fin r.ref.to_km) rows) q ≠ [] :=
    List.ne_nil_of_mem (hperm.mem_iff.2 h0)
  refine ⟨(roadGroup (sortValuesAsc (fun r => PFloat.fin r.ref.to_km) rows) q).getLast hne,
    List.getLast?_eq_getLast _ hne,
    hperm.mem_iff.1 (List.getLast_mem hne), ?_⟩
  intro r2 hr2
  exact le_of_pfLt_fin_eq_false
    (keySorted_getLast_max hsorted hne r2 (hperm.mem_iff.2 hr2))

/-- C7: road-level aggregation.  The road report has exactly one row per
distinct `road` value of the joined (pre-filter) segment frame
(duplicate-free, and a road appears there iff some segment row carries
it); each road row's summed columns — the aggregation columns, which
always include `total_km` — are the sums of that column over exactly the
segment rows sharing the road value; its `from_name` comes from a group
row of minimal `from_km` and its `to_name` from a group row of maximal
`to_km`, the two rows being chosen independently. -/
theorem claim_C7_road_aggregation (recs : List SegRec) (refs : List RefSeg) :
    "total_km" ∈ aggColsOf recs ∧
    ((roadStage recs refs).map (fun rr => rr.road)).Nodup ∧
    (∀ q : ℚ, (∃ rr ∈ roadStage recs refs, rr.road = q) ↔
      (∃ r ∈ segStage recs refs, r.ref.road = q)) ∧
    (∀ rr ∈ roadStage recs refs,
      rr.sums = (aggColsOf recs).map (fun c =>
        (c, ((roadGroup (segStage recs refs) rr.road).map
          (fun r => aggCellQ r c)).sum)) ∧
      (∃ rmin ∈ roadGroup (segStage recs refs) rr.road,
        rr.from_name = rmin.ref.from_name ∧
        ∀ r2 ∈ roadGroup (segStage recs refs) rr.road,
          rmin.ref.from_km ≤ r2.ref.from_km) ∧
      (∃ rmax ∈ roadGroup (segStage recs refs) rr.road,
        rr.to_name = rmax.ref.to_name ∧
        ∀ r2 ∈ roadGroup (segStage recs refs) rr.road,
          r2.ref.to_km ≤ rmax.ref.to_km)) := by
  have hperm := roadStage_perm recs refs
  refine ⟨?_, ?_, ?_, ?_⟩
  · have h1 : "total_km" ∈ dfColsOf recs :=
      mem_foldl_addColIfAbsent_self computedColsList _ (by decide)
    have h2 : "total_km" ∈ outColsOf recs := by
      unfold outColsOf
      exact List.mem_filter.2 ⟨by decide, decide_eq_true h1⟩
    show "total_km" ∈ aggColumnsList.filter (fun c => decide (c ∈ outColsOf recs))
    exact List.mem_filter.2 ⟨by decide, decide_eq_true h2⟩
  · have hm := hperm.map (fun rr : RoadRow => rr.road)
    rw [List.map_map] at hm
    have h2 : (roadKeys (segStage recs refs)).map
        ((fun rr : RoadRow => rr.road) ∘
          buildRoadRow (aggColsOf recs) (segStage recs refs)) =
        roadKeys (segStage recs refs) := by
      have hfun : ((fun rr : RoadRow => rr.road) ∘
          buildRoadRow (aggColsOf recs) (segStage recs refs)) = fun q => q :=
        funext (fun q => buildRoadRow_road _ _ q)
      rw [hfun, List.map_id']
    rw [h2] at hm
    exact hm.nodup_iff.2 (roadKeys_nodup _)
  · intro q
    constructor
    · rintro ⟨rr, hrr, rfl⟩
      rcases List.mem_map.1 (hperm.mem_iff.1 hrr) with ⟨q2, hq2, rfl⟩
      rw [buildRoadRow_road]
      exact mem_roadKeys.1 hq2
    · intro h
      refine ⟨buildRoadRow (aggColsOf recs) (segStage recs refs) q, ?_,
        buildRoadRow_road _ _ _⟩
      exact hperm.mem_iff.2 (List.mem_map.2 ⟨q, mem_roadKeys.2 h, rfl⟩)
  · intro rr hrr
    rcases List.mem_map.1 (hperm.mem_iff.1 hrr) with ⟨q, hq, rfl⟩
    rw [buildRoadRow_road]
    rcases mem_roadKeys.1 hq with ⟨r0, hr0, hr0q⟩
    have h0 : r0 ∈ roadGroup (segStage recs refs) q :=
      List.mem_filter.2 ⟨hr0, decide_eq_true hr0q⟩
    refine ⟨buildRoadRow_sums _ _ _, ?_, ?_⟩
    · rcases sorted_group_head_from (segStage recs refs) q h0 with ⟨x, hx, hxg, hmin⟩
      refine ⟨x, hxg, ?_, hmin⟩
      rw [buildRoadRow_from_name, hx]
      rfl
    · rcases sorted_group_last_to (segStage recs refs) q h0 with ⟨x, hx, hxg, hmax⟩
      refine ⟨x, hxg, ?_, hmax⟩
      rw [buildRoadRow_to_name, hx]
      rfl

/-- Witness for C7 on the concrete scenario: road 100 appears in the
joined frame, and the summed columns of the road-200 report row follow
the group-sum formula. -/
theorem claim_C7_road_aggregation_witness :
    (∃ r ∈ segStage exRecs exRefs, r.ref.road = 100) ∧
    (buildRoadRow (aggColsOf exRecs) (segStage exRecs exRefs) 200).sums =
      (aggColsOf exRecs).map (fun c =>
        (c, ((roadGroup (segStage exRecs exRefs)
          (buildRoadRow (aggColsOf exRecs) (segStage exRecs exRefs) 200).road).map
            (fun r => aggCellQ r c)).sum)) := by
  have h := claim_C7_road_aggregation exRecs exRefs
  refine ⟨(h.2.2.1 100).1 (by with_unfolding_all decide), ?_⟩
  exact (h.2.2.2 _ (by with_unfolding_all decide)).1
